import Mathlib

/-!
# Verification of the blocks_web game core

A shallow embedding of the core modules of the blocks_web repository
(src/core/Grid.ts, src/core/ScoreManager.ts, src/core/BlockGenerator.ts,
src/data/figures.ts, src/data/constants.ts) together with proofs about the
properties stated in the specification.

Conventions:
* TypeScript numbers holding small integers are modelled as `Int` (grid
  coordinates, scores, move counters) or `Nat` (list indices, drop counts).
* The `Uint8Array` row/column counters wrap modulo 256 on increment and
  decrement; the embedding keeps the explicit `% 256`.
* `Math.random()` is modelled by an explicit rational parameter `rand`
  standing for the single random draw an operation performs.
* Mutation of `this` is modelled by explicit state passing: a method becomes
  a function from the state to the new state paired with its return value.
-/

/-- The seven block colors of `BlockColor` in src/data/constants.ts. -/
inductive BlockColor where
  | Red | Orange | Yellow | Green | LightBlue | Blue | Violet
deriving DecidableEq, Repr

/-- `GridCell` from src/core/Grid.ts: occupancy flag plus optional color. -/
structure GridCell where
  occupied : Bool
  color : Option BlockColor
deriving DecidableEq, Repr

/-- `Point` from src/utils/math.ts, with integer coordinates. -/
structure Point where
  x : Int
  y : Int
deriving DecidableEq, Repr

/-- `BlockShape` from src/data/figures.ts. -/
structure BlockShape where
  id : String
  blockCount : Nat
  cells : List (Int × Int)
deriving DecidableEq, Repr

/-! ## ScoreManager (src/core/ScoreManager.ts) -/

-- The scoring constants of `SCORE` in src/data/constants.ts.
namespace SCORE

def linePointsPerLine : Int := 35

def fieldClearBonus : Int := 300

def comboWindow : Int := 3

/-- The `SCORE.linePoints` record lookup, with the `|| 0` default applied. -/
def linePoints (n : Int) : Int :=
  if n = 1 then 10 else if n = 2 then 30 else if n = 3 then 60
  else if n = 4 then 100 else if n = 5 then 150 else 0

end SCORE

/-- `COMBO_MESSAGES[min(linesCleared, 6)] || ''` lookup from
src/data/constants.ts (key 1 holds the empty string, missing keys give the
`|| ''` default). -/
def comboMessage (n : Int) : String :=
  if n = 2 then "Good!" else if n = 3 then "Excellent!"
  else if n = 4 then "Magnificent!" else if n = 5 then "Super!"
  else if n = 6 then "Outstanding!" else ""

/-- The mutable fields of the `ScoreManager` class. -/
structure ScoreManager where
  score : Int
  highScore : Int
  currentMove : Int
  lastComboMove : Int
  comboStreak : Int
deriving DecidableEq, Repr

/-- A fresh `ScoreManager` (constructor plus `reset()`), with the persisted
high score taken to be 0 (empty localStorage). -/
def ScoreManager.fresh : ScoreManager :=
  { score := 0, highScore := 0, currentMove := 0, lastComboMove := -10, comboStreak := 0 }

/-- `calculateLinePoints` from src/core/ScoreManager.ts. -/
def calculateLinePoints (lineCount : Int) : Int :=
  if lineCount ≤ 0 then 0
  else if lineCount ≤ 5 then SCORE.linePoints lineCount
  else lineCount * SCORE.linePointsPerLine

/-- `ComboResult` from src/core/ScoreManager.ts. -/
structure ComboResult where
  basePoints : Int
  linePoints : Int
  comboMultiplier : Int
  totalPoints : Int
  isCombo : Bool
  comboStreak : Int
  message : String
  isFieldClear : Bool
  fieldClearBonus : Int
deriving DecidableEq, Repr

/-- Private `getMessage` of `ScoreManager`. -/
def ScoreManager.getMessage (linesCleared streak : Int) (isCombo : Bool) : String :=
  if linesCleared = 0 then ""
  else if isCombo ∧ streak > 1 then "x" ++ toString (streak + 1) ++ " COMBO!"
  else comboMessage (min linesCleared 6)

/-- `ScoreManager.processPlacement`: returns the updated manager state and the
`ComboResult`.  The combo branch updates the streak and computes
`max(2, streak + 1)`; the returned `comboMultiplier` and the line-points term
of `totalPoints` both apply that multiplier only when `isCombo` is set. -/
def ScoreManager.processPlacement (s : ScoreManager) (cellsPlaced linesCleared : Int)
    (isFieldClear : Bool) : ScoreManager × ComboResult :=
  let currentMove := s.currentMove + 1
  let basePoints := cellsPlaced
  let linePoints := calculateLinePoints linesCleared
  let upd :=
    if linesCleared > 0 then
      if currentMove - s.lastComboMove ≤ SCORE.comboWindow then
        (s.comboStreak + 1, true, currentMove, max 2 (s.comboStreak + 1 + 1))
      else
        (1, false, currentMove, max 2 (1 + 1))
    else
      (if currentMove - s.lastComboMove > SCORE.comboWindow then 0 else s.comboStreak,
       false, s.lastComboMove, 1)
  let comboStreak := upd.1
  let isCombo := upd.2.1
  let lastComboMove := upd.2.2.1
  let comboMultiplier := upd.2.2.2
  let fieldClearBonus := if isFieldClear then SCORE.fieldClearBonus else 0
  let totalPoints := basePoints
      + (if linesCleared > 0 then linePoints * (if isCombo then comboMultiplier else 1) else 0)
      + fieldClearBonus
  let score := s.score + totalPoints
  let highScore := if score > s.highScore then score else s.highScore
  ({ score := score, highScore := highScore, currentMove := currentMove,
     lastComboMove := lastComboMove, comboStreak := comboStreak },
   { basePoints := basePoints, linePoints := linePoints,
     comboMultiplier := if isCombo then comboMultiplier else 1,
     totalPoints := totalPoints, isCombo := isCombo, comboStreak := comboStreak,
     message := ScoreManager.getMessage linesCleared comboStreak isCombo,
     isFieldClear := isFieldClear, fieldClearBonus := fieldClearBonus })

/-! ## C7: line-clear points -/

/-- C7: for every integer n, `calculateLinePoints` returns 0 for n ≤ 0, the
table values 10, 30, 60, 100, 150 for n = 1..5, and n*35 for n ≥ 6; applied
to 1..7 it yields [10, 30, 60, 100, 150, 210, 245]. -/
theorem calculateLinePoints_spec :
    (∀ n : Int, n ≤ 0 → calculateLinePoints n = 0) ∧
    (calculateLinePoints 1 = 10 ∧ calculateLinePoints 2 = 30 ∧
     calculateLinePoints 3 = 60 ∧ calculateLinePoints 4 = 100 ∧
     calculateLinePoints 5 = 150) ∧
    (∀ n : Int, 6 ≤ n → calculateLinePoints n = n * 35) ∧
    [(1 : Int), 2, 3, 4, 5, 6, 7].map calculateLinePoints
      = [10, 30, 60, 100, 150, 210, 245] := by
  refine ⟨?_, by decide, ?_, by decide⟩
  · intro n h
    unfold calculateLinePoints
    rw [if_pos h]
  · intro n h
    unfold calculateLinePoints
    rw [if_neg (by omega), if_neg (by omega)]
    rfl

theorem calculateLinePoints_spec_witness :
    calculateLinePoints (-3) = 0 ∧ calculateLinePoints 9 = 315 :=
  ⟨calculateLinePoints_spec.1 (-3) (by decide),
   (calculateLinePoints_spec.2.2.1 9 (by decide)).trans (by decide)⟩

/-! ## C1: combo multiplier on a clearing move -/

/-- C1 counterexample: on a fresh scorer, `processPlacement(4, 1, false)` is
outside the combo window (move 1 minus lastComboMove -10 exceeds 3), so the
returned `comboMultiplier` is 1 and `totalPoints` is 14, not the claimed
multiplier 2 and total 24. -/
theorem processPlacement_fresh_not_claimed :
    ((ScoreManager.fresh.processPlacement 4 1 false).2.basePoints = 4 ∧
     (ScoreManager.fresh.processPlacement 4 1 false).2.linePoints = 10 ∧
     (ScoreManager.fresh.processPlacement 4 1 false).2.comboMultiplier = 1 ∧
     (ScoreManager.fresh.processPlacement 4 1 false).2.totalPoints = 14) ∧
    ¬((ScoreManager.fresh.processPlacement 4 1 false).2.comboMultiplier = 2 ∧
      (ScoreManager.fresh.processPlacement 4 1 false).2.totalPoints = 24) := by
  decide

/-- C1 (amended): on a clearing move, the returned multiplier is
`max 2 (streak + 1)` (streak post-update) only when the move falls within the
3-move combo window of the previous clear; otherwise it is 1.  In both cases
`totalPoints = basePoints + linePoints * comboMultiplier + fieldClearBonus`,
with `basePoints = cellsPlaced` and `linePoints = calculateLinePoints`. -/
theorem processPlacement_clear_spec (s : ScoreManager) (cellsPlaced linesCleared : Int)
    (isFieldClear : Bool) (h : 0 < linesCleared) :
    ((s.processPlacement cellsPlaced linesCleared isFieldClear).2.basePoints = cellsPlaced) ∧
    ((s.processPlacement cellsPlaced linesCleared isFieldClear).2.linePoints
        = calculateLinePoints linesCleared) ∧
    ((s.processPlacement cellsPlaced linesCleared isFieldClear).2.comboMultiplier
        = if s.currentMove + 1 - s.lastComboMove ≤ 3 then
            max 2 ((s.processPlacement cellsPlaced linesCleared isFieldClear).1.comboStreak + 1)
          else 1) ∧
    ((s.processPlacement cellsPlaced linesCleared isFieldClear).2.totalPoints
        = cellsPlaced
          + calculateLinePoints linesCleared
            * (s.processPlacement cellsPlaced linesCleared isFieldClear).2.comboMultiplier
          + (if isFieldClear then 300 else 0)) := by
  have hgt : (linesCleared > 0) = True := eq_true h
  unfold ScoreManager.processPlacement
  simp only [hgt, if_true, SCORE.comboWindow, SCORE.fieldClearBonus]
  by_cases hw : s.currentMove + 1 - s.lastComboMove ≤ 3
  · simp [hw, mul_comm]
  · simp [hw]

theorem processPlacement_clear_spec_witness :
    (ScoreManager.fresh.processPlacement 4 1 false).2.comboMultiplier = 1 ∧
    (ScoreManager.fresh.processPlacement 4 1 false).2.totalPoints = 14 := by
  obtain ⟨h1, h2, h3, h4⟩ := processPlacement_clear_spec ScoreManager.fresh 4 1 false (by decide)
  have hm : (ScoreManager.fresh.processPlacement 4 1 false).2.comboMultiplier = 1 := by
    rw [h3]
    decide
  exact ⟨hm, by rw [h4, hm]; decide⟩

/-! ## C2: streak behavior of non-clearing moves -/

/-- Scorer state after a clear on move 1 followed by three non-clearing
moves: the streak is still 1 (moves 2..4 are within the window). -/
def comboDecayS4 : ScoreManager :=
  let s1 := (ScoreManager.fresh.processPlacement 1 1 false).1
  let s2 := (s1.processPlacement 1 0 false).1
  let s3 := (s2.processPlacement 1 0 false).1
  (s3.processPlacement 1 0 false).1

/-- C2 counterexample: after a clear on move 1 and non-clearing moves 2..4
the streak is still 1, but the non-clearing move 5 falls outside the 3-move
window and resets the stored streak to 0 on its own — the claim that a
non-clearing move never changes the stored streak is false. -/
theorem noClear_resets_streak_outside_window :
    comboDecayS4.comboStreak = 1 ∧
    (comboDecayS4.processPlacement 1 0 false).1.comboStreak = 0 := by
  decide

/-- C2 (amended): a call with `linesCleared = 0` leaves the stored streak
unchanged while the move is within the 3-move window of the last clear, but
resets it to 0 as soon as the move falls outside that window. -/
theorem processPlacement_noClear_streak (s : ScoreManager) (cellsPlaced : Int)
    (isFieldClear : Bool) :
    (s.processPlacement cellsPlaced 0 isFieldClear).1.comboStreak
      = if s.currentMove + 1 - s.lastComboMove > 3 then 0 else s.comboStreak := by
  unfold ScoreManager.processPlacement
  simp [SCORE.comboWindow]

/-! ## Grid (src/core/Grid.ts) -/

/-- Bounding box of a shape, from getShapeBounds in src/data/figures.ts. -/
structure ShapeBounds where
  width : Int
  height : Int
  minX : Int
  minY : Int
deriving DecidableEq, Repr

/-- getShapeBounds: min/max folds over the cells.  The TypeScript code starts
the folds at plus/minus Infinity, which for a nonempty cell list is the same
as starting from the first cell; a zero-cell shape is a load-time fatal error
per the spec, so the empty case (all zeros here) is never reached. -/
def getShapeBounds (shape : BlockShape) : ShapeBounds :=
  match shape.cells with
  | [] => ⟨0, 0, 0, 0⟩
  | c :: rest =>
    let minX := rest.foldl (fun m p => min m p.1) c.1
    let minY := rest.foldl (fun m p => min m p.2) c.2
    let maxX := rest.foldl (fun m p => max m p.1) c.1
    let maxY := rest.foldl (fun m p => max m p.2) c.2
    ⟨maxX - minX + 1, maxY - minY + 1, minX, minY⟩

/-- The unoccupied colorless cell `{ occupied: false, color: null }`. -/
def emptyCell : GridCell := ⟨false, none⟩

/-- The mutable fields of the `Grid` class: the 8x8 cell matrix and the
`Uint8Array` row/column occupancy counters. -/
structure Grid where
  cells : List (List GridCell)
  rowCounts : List Nat
  colCounts : List Nat
deriving DecidableEq, Repr

/-- A freshly constructed (or `reset()`) grid. -/
def Grid.empty : Grid :=
  { cells := List.replicate 8 (List.replicate 8 emptyCell),
    rowCounts := List.replicate 8 0,
    colCounts := List.replicate 8 0 }

/-- `isValidPosition` from src/core/Grid.ts. -/
def isValidPosition (x y : Int) : Bool :=
  0 ≤ x && x < 8 && 0 ≤ y && y < 8

/-- Read `cells[y][x]`.  Every call site guards the access with
`isValidPosition` (directly or via `canPlace`), so the out-of-range defaults
are never reached on the 8x8 matrix. -/
def Grid.cellAt (g : Grid) (x y : Int) : GridCell :=
  (g.cells.getD y.toNat []).getD x.toNat emptyCell

/-- `getCell` from src/core/Grid.ts: `null` (`none`) outside the grid. -/
def Grid.getCell (g : Grid) (x y : Int) : Option GridCell :=
  if isValidPosition x y then some (g.cellAt x y) else none

/-- Occupancy at a coordinate (shorthand for `cellAt x y |>.occupied`). -/
def Grid.occAt (g : Grid) (x y : Int) : Bool :=
  (g.cellAt x y).occupied

/-- Write `cells[y][x] = v` on a cell matrix (`List.set` leaves the matrix
unchanged when the index is out of range; all call sites are guarded by
validity checks). -/
def setMat (m : List (List GridCell)) (x y : Int) (v : GridCell) : List (List GridCell) :=
  m.set y.toNat ((m.getD y.toNat []).set x.toNat v)

/-- The absolute grid positions touched by placing `shape` at `gridPos`:
each raw cell offset is normalized against the bounding-box minimum, exactly
as in the loops of `canPlace` / `place` / `getCompletableLines`. -/
def placementCells (shape : BlockShape) (gridPos : Point) : List Point :=
  let bounds := getShapeBounds shape
  shape.cells.map fun c =>
    ⟨gridPos.x + (c.1 - bounds.minX), gridPos.y + (c.2 - bounds.minY)⟩

/-- `canPlace` from src/core/Grid.ts: all normalized cells must be in bounds
and unoccupied. -/
def Grid.canPlace (g : Grid) (shape : BlockShape) (gridPos : Point) : Bool :=
  (placementCells shape gridPos).all fun p =>
    isValidPosition p.x p.y && !(g.cellAt p.x p.y).occupied

/-- `PlacementResult` from src/core/Grid.ts. -/
structure PlacementResult where
  success : Bool
  cellsPlaced : List Point
  linesCompleted : List Nat
  pointsFromPlacement : Nat
deriving DecidableEq, Repr

/-- `counter[i]++` on a `Uint8Array`: wraps modulo 256; writes outside the
array bounds are ignored (as they are on a typed array). -/
def bumpInc (l : List Nat) (i : Int) : List Nat :=
  l.set i.toNat ((l.getD i.toNat 0 + 1) % 256)

/-- `counter[i]--` on a `Uint8Array`: wraps modulo 256 (0 becomes 255). -/
def bumpDec (l : List Nat) (i : Int) : List Nat :=
  l.set i.toNat ((l.getD i.toNat 0 + 255) % 256)

/-- One iteration of the placement loop of `place`: occupy the cell and
increment the row/column counters. -/
def Grid.placeCellStep (g : Grid) (p : Point) (color : BlockColor) : Grid :=
  { cells := setMat g.cells p.x p.y ⟨true, some color⟩,
    rowCounts := bumpInc g.rowCounts p.y,
    colCounts := bumpInc g.colCounts p.x }

/-- `findCompletedLines`: rows 0..7 with counter 8, then columns as 8..15. -/
def Grid.findCompletedLines (g : Grid) : List Nat :=
  ((List.range 8).filterMap fun y =>
    if g.rowCounts.getD y 0 = 8 then some y else none)
  ++ ((List.range 8).filterMap fun x =>
    if g.colCounts.getD x 0 = 8 then some (x + 8) else none)

/-- `place` from src/core/Grid.ts. -/
def Grid.place (g : Grid) (shape : BlockShape) (gridPos : Point) (color : BlockColor) :
    Grid × PlacementResult :=
  if g.canPlace shape gridPos then
    let g2 := (placementCells shape gridPos).foldl (fun h p => h.placeCellStep p color) g
    (g2, { success := true, cellsPlaced := placementCells shape gridPos,
           linesCompleted := g2.findCompletedLines,
           pointsFromPlacement := shape.blockCount })
  else
    (g, { success := false, cellsPlaced := [], linesCompleted := [],
          pointsFromPlacement := 0 })

/-- The row/column additions arrays of the optimized `getCompletableLines`:
a fresh 8-slot `Uint8Array` incremented at `coord p` for every placement
cell (the TypeScript loop fills both arrays in one pass; the writes to the
two arrays are independent, so they are modelled as two folds). -/
def buildAdditions (coord : Point → Int) (ps : List Point) : List Nat :=
  ps.foldl (fun arr p => bumpInc arr (coord p)) (List.replicate 8 0)

/-- The optimized `getCompletableLines` from src/core/Grid.ts: counter-delta
comparison, only lines receiving new cells are reported. -/
def Grid.getCompletableLines (g : Grid) (shape : BlockShape) (gridPos : Point) : List Nat :=
  if g.canPlace shape gridPos then
    let rowAdditions := buildAdditions (fun p => p.y) (placementCells shape gridPos)
    let colAdditions := buildAdditions (fun p => p.x) (placementCells shape gridPos)
    ((List.range 8).filterMap fun y =>
      if 0 < rowAdditions.getD y 0 ∧ g.rowCounts.getD y 0 + rowAdditions.getD y 0 = 8
      then some y else none)
    ++ ((List.range 8).filterMap fun x =>
      if 0 < colAdditions.getD x 0 ∧ g.colCounts.getD x 0 + colAdditions.getD x 0 = 8
      then some (x + 8) else none)
  else []

/-- `getLineCells`: the 8 cells of a row (index < 8) or column (index - 8). -/
def getLineCells (lineIndex : Nat) : List Point :=
  if lineIndex < 8 then
    (List.range 8).map fun x => ⟨Int.ofNat x, (lineIndex : Int)⟩
  else
    (List.range 8).map fun y => ⟨(lineIndex : Int) - 8, Int.ofNat y⟩

/-- One step of the dedup in `getCellsToClear`: the string-keyed `Set`
membership test coincides with list membership of the point. -/
def dedupInsert (acc : List Point) (c : Point) : List Point :=
  if c ∈ acc then acc else acc ++ [c]

/-- `getCellsToClear`: concatenate the line cells, deduplicating cells shared
between intersecting row/column clears (first occurrence kept). -/
def getCellsToClear (lineIndices : List Nat) : List Point :=
  lineIndices.foldl (fun acc i => (getLineCells i).foldl dedupInsert acc) []

/-- `clearCell` from src/core/Grid.ts: only valid, occupied cells are freed
and decrement the counters. -/
def Grid.clearCell (g : Grid) (x y : Int) : Grid :=
  if isValidPosition x y && (g.cellAt x y).occupied then
    { cells := setMat g.cells x y emptyCell,
      rowCounts := bumpDec g.rowCounts y,
      colCounts := bumpDec g.colCounts x }
  else g

/-- `clearCells`: clear a list of positions in order. -/
def Grid.clearCells (g : Grid) (cs : List Point) : Grid :=
  cs.foldl (fun h p => h.clearCell p.x p.y) g

/-- `clearLines`: clear the deduplicated cells of the given line indices and
return them. -/
def Grid.clearLines (g : Grid) (lineIndices : List Nat) : Grid × List Point :=
  let cellsToClear := getCellsToClear lineIndices
  (g.clearCells cellsToClear, cellsToClear)

/-! ## C4: place success equals canPlace, failure is a no-op -/

/-- C4: for every shape, position and color, `place` succeeds exactly when
`canPlace` holds, and a failing `place` returns (no exception) leaving the
whole grid state — cells and both counter arrays — unchanged. -/
theorem place_success_iff_canPlace (g : Grid) (shape : BlockShape) (gridPos : Point)
    (color : BlockColor) :
    ((g.place shape gridPos color).2.success = g.canPlace shape gridPos) ∧
    (g.canPlace shape gridPos = false → (g.place shape gridPos color).1 = g) := by
  cases h : g.canPlace shape gridPos with
  | true => simp [Grid.place, h]
  | false => simp [Grid.place, h]

/-- The single-cell shape Iv1 from the catalog. -/
def figIv1 : BlockShape := ⟨"Iv1", 1, [(0, 0)]⟩

theorem place_success_iff_canPlace_witness :
    (Grid.empty.place figIv1 ⟨8, 0⟩ BlockColor.Red).1 = Grid.empty ∧
    (Grid.empty.place figIv1 ⟨8, 0⟩ BlockColor.Red).2.success = false := by
  have h := place_success_iff_canPlace Grid.empty figIv1 ⟨8, 0⟩ BlockColor.Red
  exact ⟨h.2 (by decide), by rw [h.1]; decide⟩

/-! ## C6: getCompletableLines is a pure query -/

/-- Method-call form of `getCompletableLines`: the body reads the grid and
writes only to its two local addition arrays, so its state-passing
translation returns the receiver state unchanged next to the result. -/
def Grid.getCompletableLinesCall (g : Grid) (shape : BlockShape) (gridPos : Point) :
    Grid × List Nat :=
  (g, g.getCompletableLines shape gridPos)

/-- The grid state after n successive `getCompletableLines` calls. -/
def Grid.iterateCompletableCalls (g : Grid) (shape : BlockShape) (gridPos : Point) :
    Nat → Grid
  | 0 => g
  | n + 1 =>
    ((Grid.iterateCompletableCalls g shape gridPos n).getCompletableLinesCall shape gridPos).1

/-- C6: `getCompletableLines` never mutates a cell or either fill-counter
array: one call returns the grid unchanged, and any number of repeated calls
leaves the grid state identical. -/
theorem getCompletableLines_pure (g : Grid) (shape : BlockShape) (gridPos : Point) (n : Nat) :
    ((g.getCompletableLinesCall shape gridPos).1 = g) ∧
    (g.iterateCompletableCalls shape gridPos n = g) := by
  refine ⟨rfl, ?_⟩
  induction n with
  | zero => rfl
  | succ n ih =>
    unfold Grid.iterateCompletableCalls
    rw [ih]
    rfl

/-! ## The shape catalog (src/data/figures.ts) -/

-- The 129 entries of FIGURES, transcribed verbatim (id, blockCount, cells).
def FIGURES_0 : List BlockShape := [
  ⟨"Iv5", 5, [(0, 0), (0, 1), (0, 2), (0, 3), (0, 4)]⟩,
  ⟨"Ig5", 5, [(0, 0), (1, 0), (2, 0), (3, 0), (4, 0)]⟩,
  ⟨"J12", 4, [(0, 0), (1, 0), (2, 0), (0, 1)]⟩,
  ⟨"L6", 4, [(0, 0), (0, 1), (1, 1), (2, 1)]⟩,
  ⟨"J3", 4, [(0, 0), (0, 1), (0, 2), (1, 2)]⟩,
  ⟨"L9", 4, [(1, 0), (1, 1), (1, 2), (0, 2)]⟩,
  ⟨"L12", 4, [(0, 0), (1, 0), (2, 0), (2, 1)]⟩,
  ⟨"J6", 4, [(2, 0), (0, 1), (1, 1), (2, 1)]⟩,
  ⟨"L3", 4, [(0, 0), (1, 0), (0, 1), (0, 2)]⟩,
  ⟨"J9", 4, [(0, 0), (1, 0), (1, 1), (1, 2)]⟩,
  ⟨"LL9", 5, [(2, 0), (2, 1), (0, 2), (1, 2), (2, 2)]⟩,
  ⟨"LL6", 5, [(0, 0), (0, 1), (0, 2), (1, 2), (2, 2)]⟩,
  ⟨"LL12", 5, [(0, 0), (1, 0), (2, 0), (2, 1), (2, 2)]⟩,
  ⟨"LL3", 5, [(0, 0), (1, 0), (2, 0), (0, 1), (0, 2)]⟩,
  ⟨"Iv2", 2, [(0, 0), (0, 1)]⟩,
  ⟨"Ig2", 2, [(0, 0), (1, 0)]⟩]

def FIGURES_1 : List BlockShape := [
  ⟨"Iv3", 3, [(0, 0), (0, 1), (0, 2)]⟩,
  ⟨"Ig3", 3, [(0, 0), (1, 0), (2, 0)]⟩,
  ⟨"Ov", 6, [(0, 0), (1, 0), (0, 1), (1, 1), (0, 2), (1, 2)]⟩,
  ⟨"Og", 6, [(0, 0), (1, 0), (2, 0), (0, 1), (1, 1), (2, 1)]⟩,
  ⟨"O4", 4, [(0, 0), (1, 0), (0, 1), (1, 1)]⟩,
  ⟨"T12", 4, [(0, 0), (1, 0), (2, 0), (1, 1)]⟩,
  ⟨"T6", 4, [(1, 0), (0, 1), (1, 1), (2, 1)]⟩,
  ⟨"T3", 4, [(0, 0), (0, 1), (1, 1), (0, 2)]⟩,
  ⟨"T9", 4, [(1, 0), (0, 1), (1, 1), (1, 2)]⟩,
  ⟨"/2", 2, [(0, 0), (1, 1)]⟩,
  ⟨"\\2", 2, [(1, 0), (0, 1)]⟩,
  ⟨"r9", 3, [(1, 0), (0, 1), (1, 1)]⟩,
  ⟨"r3", 3, [(0, 0), (1, 0), (0, 1)]⟩,
  ⟨"r12", 3, [(0, 0), (1, 0), (1, 1)]⟩,
  ⟨"r6", 3, [(0, 0), (0, 1), (1, 1)]⟩,
  ⟨"Iv1", 1, [(0, 0)]⟩]

def FIGURES_2 : List BlockShape := [
  ⟨"Iv4", 4, [(0, 0), (0, 1), (0, 2), (0, 3)]⟩,
  ⟨"Ig4", 4, [(0, 0), (1, 0), (2, 0), (3, 0)]⟩,
  ⟨"O9", 9, [(0, 0), (1, 0), (2, 0), (0, 1), (1, 1), (2, 1), (0, 2), (1, 2), (2, 2)]⟩,
  ⟨"Sv", 4, [(0, 0), (1, 0), (1, 1), (2, 1)]⟩,
  ⟨"Zv", 4, [(1, 0), (2, 0), (0, 1), (1, 1)]⟩,
  ⟨"Sg", 4, [(1, 0), (0, 1), (1, 1), (0, 2)]⟩,
  ⟨"Zg", 4, [(0, 0), (0, 1), (1, 1), (1, 2)]⟩,
  ⟨"/3", 3, [(0, 0), (1, 1), (2, 2)]⟩,
  ⟨"\\3", 3, [(2, 0), (1, 1), (0, 2)]⟩,
  ⟨"H9", 5, [(1, 0), (2, 0), (1, 1), (0, 2), (1, 2)]⟩,
  ⟨"H3", 5, [(0, 0), (1, 0), (1, 1), (1, 2), (2, 2)]⟩,
  ⟨"H12", 5, [(2, 0), (2, 1), (1, 1), (0, 1), (0, 2)]⟩,
  ⟨"H6", 5, [(0, 0), (0, 1), (1, 1), (2, 1), (2, 2)]⟩,
  ⟨"U12", 5, [(0, 0), (1, 0), (2, 0), (0, 1), (2, 1)]⟩,
  ⟨"U6", 5, [(0, 0), (2, 0), (0, 1), (1, 1), (2, 1)]⟩,
  ⟨"U3", 5, [(0, 0), (1, 0), (0, 1), (0, 2), (1, 2)]⟩]

def FIGURES_3 : List BlockShape := [
  ⟨"U9", 5, [(0, 0), (1, 0), (1, 1), (0, 2), (1, 2)]⟩,
  ⟨"X", 5, [(1, 0), (0, 1), (1, 1), (2, 1), (1, 2)]⟩,
  ⟨"II3", 6, [(0, 0), (1, 0), (2, 0), (0, 2), (1, 2), (2, 2)]⟩,
  ⟨"II6", 6, [(0, 0), (2, 0), (0, 1), (2, 1), (0, 2), (2, 2)]⟩,
  ⟨"O1", 7, [(0, 0), (1, 0), (2, 0), (0, 1), (2, 1), (0, 2), (1, 2)]⟩,
  ⟨"O5", 7, [(0, 0), (1, 0), (0, 1), (2, 1), (0, 2), (1, 2), (2, 2)]⟩,
  ⟨"O7", 7, [(1, 0), (2, 0), (0, 1), (2, 1), (0, 2), (1, 2), (2, 2)]⟩,
  ⟨"O11", 7, [(0, 0), (1, 0), (2, 0), (0, 1), (2, 1), (1, 2), (2, 2)]⟩,
  ⟨"II31", 4, [(0, 0), (0, 1), (2, 1), (0, 2)]⟩,
  ⟨"II61", 4, [(1, 0), (0, 2), (1, 2), (2, 2)]⟩,
  ⟨"II9", 4, [(2, 0), (0, 1), (2, 1), (2, 2)]⟩,
  ⟨"II12", 4, [(0, 0), (1, 0), (2, 0), (1, 2)]⟩,
  ⟨"XX", 5, [(0, 0), (2, 0), (1, 1), (0, 2), (2, 2)]⟩,
  ⟨"X0X", 5, [(0, 0), (3, 0), (1, 1), (2, 1), (1, 2), (2, 2), (0, 3), (3, 3)]⟩,
  ⟨"XoX", 5, [(0, 0), (3, 0), (0, 3), (3, 3)]⟩,
  ⟨"XxX", 5, [(0, 0), (4, 0), (1, 1), (3, 1), (2, 2), (1, 3), (3, 3), (0, 4), (4, 4)]⟩]

def FIGURES_4 : List BlockShape := [
  ⟨"Ov1", 7, [(0, 0), (1, 0), (2, 0), (0, 1), (1, 1), (2, 1), (3, 2)]⟩,
  ⟨"Ov5", 7, [(3, 0), (0, 1), (1, 1), (2, 1), (0, 2), (1, 2), (2, 2)]⟩,
  ⟨"Ov7", 7, [(0, 0), (1, 1), (2, 1), (3, 1), (1, 2), (2, 2), (3, 2)]⟩,
  ⟨"Ov11", 7, [(0, 2), (1, 0), (2, 0), (3, 0), (1, 1), (2, 1), (3, 1)]⟩,
  ⟨"Og1", 7, [(0, 0), (1, 0), (0, 1), (1, 1), (0, 2), (1, 2), (2, 3)]⟩,
  ⟨"Og5", 7, [(2, 0), (0, 1), (1, 1), (0, 2), (1, 2), (0, 3), (1, 3)]⟩,
  ⟨"Og7", 7, [(0, 0), (1, 1), (2, 1), (1, 2), (2, 2), (1, 3), (2, 3)]⟩,
  ⟨"Og11", 7, [(1, 0), (2, 0), (1, 1), (2, 1), (1, 2), (2, 2), (0, 3)]⟩,
  ⟨"Ov-1", 5, [(0, 0), (1, 0), (0, 1), (1, 1), (0, 2)]⟩,
  ⟨"Ov-4", 5, [(0, 0), (0, 1), (1, 1), (0, 2), (1, 2)]⟩,
  ⟨"Ov-7", 5, [(1, 0), (0, 1), (1, 1), (0, 2), (1, 2)]⟩,
  ⟨"Ov-11", 5, [(0, 0), (1, 0), (0, 1), (1, 1), (1, 2)]⟩,
  ⟨"Og-1", 5, [(0, 0), (1, 0), (2, 0), (0, 1), (1, 1)]⟩,
  ⟨"Og-4", 5, [(0, 0), (1, 0), (0, 1), (1, 1), (2, 1)]⟩,
  ⟨"Og-7", 5, [(1, 0), (2, 0), (0, 1), (1, 1), (2, 1)]⟩,
  ⟨"Og-11", 5, [(0, 0), (1, 0), (2, 0), (1, 1), (2, 1)]⟩]

def FIGURES_5 : List BlockShape := [
  ⟨"b3", 3, [(0, 0), (2, 0), (4, 0)]⟩,
  ⟨"b3v", 3, [(0, 0), (0, 2), (0, 4)]⟩,
  ⟨"b4", 4, [(0, 0), (2, 0), (0, 2), (2, 2)]⟩,
  ⟨"b2", 2, [(0, 0), (2, 0)]⟩,
  ⟨"b2v", 2, [(0, 0), (0, 2)]⟩,
  ⟨"b2x", 2, [(0, 0), (2, 2)]⟩,
  ⟨"b2xv", 2, [(2, 0), (0, 2)]⟩,
  ⟨"r-7", 4, [(0, 0), (2, 1), (1, 2), (2, 2)]⟩,
  ⟨"r-1", 4, [(0, 0), (1, 0), (0, 1), (2, 2)]⟩,
  ⟨"r-11", 4, [(1, 0), (2, 0), (2, 1), (0, 2)]⟩,
  ⟨"r-5", 4, [(2, 0), (0, 1), (0, 2), (1, 2)]⟩,
  ⟨"Tv3", 5, [(0, 0), (1, 0), (2, 0), (3, 0), (3, 1)]⟩,
  ⟨"Tv6", 5, [(0, 0), (1, 0), (2, 0), (3, 0), (0, 1)]⟩,
  ⟨"Tv9", 5, [(3, 0), (0, 1), (1, 1), (2, 1), (3, 1)]⟩,
  ⟨"Tv12", 5, [(0, 0), (0, 1), (1, 1), (2, 1), (3, 1)]⟩,
  ⟨"Tg3", 5, [(0, 0), (0, 1), (0, 2), (0, 3), (1, 3)]⟩]

def FIGURES_6 : List BlockShape := [
  ⟨"Tg6", 5, [(1, 0), (1, 1), (1, 2), (1, 3), (0, 3)]⟩,
  ⟨"Tg9", 5, [(0, 0), (1, 0), (0, 1), (0, 2), (0, 3)]⟩,
  ⟨"Tg12", 5, [(0, 0), (1, 0), (1, 1), (1, 2), (1, 3)]⟩,
  ⟨"M3", 6, [(0, 0), (1, 0), (2, 0), (3, 0), (1, 1), (2, 1)]⟩,
  ⟨"M6", 6, [(1, 0), (2, 0), (0, 1), (1, 1), (2, 1), (3, 1)]⟩,
  ⟨"M9", 6, [(0, 0), (0, 1), (1, 1), (0, 2), (1, 2), (0, 3)]⟩,
  ⟨"M12", 6, [(1, 0), (0, 1), (1, 1), (0, 2), (1, 2), (1, 3)]⟩,
  ⟨"P3", 6, [(0, 0), (0, 1), (0, 2), (1, 2), (0, 3), (1, 3)]⟩,
  ⟨"P9", 6, [(2, 0), (3, 0), (0, 1), (1, 1), (2, 1), (3, 1)]⟩,
  ⟨"P6", 6, [(0, 0), (1, 0), (0, 1), (1, 1), (1, 2), (1, 3)]⟩,
  ⟨"P12", 6, [(0, 0), (1, 0), (2, 0), (3, 0), (0, 1), (1, 1)]⟩,
  ⟨"OO", 8, [(0, 0), (1, 0), (2, 0), (0, 1), (2, 1), (0, 2), (1, 2), (2, 2)]⟩,
  ⟨"A12", 5, [(0, 0), (2, 0), (0, 1), (2, 1), (1, 2)]⟩,
  ⟨"A9", 5, [(1, 0), (2, 0), (0, 1), (1, 2), (2, 2)]⟩,
  ⟨"A6", 5, [(1, 0), (0, 1), (2, 1), (0, 2), (2, 2)]⟩,
  ⟨"A3", 5, [(0, 0), (1, 0), (2, 1), (0, 2), (1, 2)]⟩]

def FIGURES_7 : List BlockShape := [
  ⟨"Hv", 7, [(0, 0), (2, 0), (0, 1), (1, 1), (2, 1), (0, 2), (2, 2)]⟩,
  ⟨"Hg", 7, [(0, 0), (1, 0), (2, 0), (1, 1), (0, 2), (1, 2), (2, 2)]⟩,
  ⟨">3", 3, [(0, 0), (1, 1), (0, 2)]⟩,
  ⟨">12", 3, [(0, 0), (2, 0), (1, 1)]⟩,
  ⟨">6", 3, [(1, 0), (0, 1), (2, 1)]⟩,
  ⟨">9", 3, [(1, 0), (0, 1), (1, 2)]⟩,
  ⟨">0", 4, [(1, 0), (0, 1), (2, 1), (1, 2)]⟩,
  ⟨"O98", 6, [(0, 0), (1, 0), (2, 0), (1, 1), (0, 2), (2, 2)]⟩,
  ⟨"O99", 6, [(0, 0), (2, 0), (1, 1), (2, 1), (0, 2), (2, 2)]⟩,
  ⟨"O97", 6, [(0, 0), (2, 0), (0, 1), (1, 1), (0, 2), (2, 2)]⟩,
  ⟨"O96", 6, [(0, 0), (2, 0), (1, 1), (0, 2), (1, 2), (2, 2)]⟩,
  ⟨"II111", 5, [(0, 0), (2, 0), (0, 1), (0, 2)]⟩,
  ⟨"II222", 5, [(0, 0), (0, 2), (1, 2), (2, 2)]⟩,
  ⟨"II333", 5, [(2, 0), (2, 1), (0, 2), (2, 2)]⟩,
  ⟨"II444", 5, [(0, 0), (1, 0), (2, 0), (2, 2)]⟩,
  ⟨"II555", 5, [(0, 0), (1, 0), (0, 2), (1, 2)]⟩]

def FIGURES_8 : List BlockShape := [
  ⟨"II777", 5, [(0, 0), (2, 0), (0, 1), (2, 1)]⟩]

def FIGURES : List BlockShape :=
  FIGURES_0 ++ FIGURES_1 ++ FIGURES_2 ++ FIGURES_3 ++ FIGURES_4 ++ FIGURES_5 ++ FIGURES_6 ++ FIGURES_7 ++ FIGURES_8

set_option maxRecDepth 4000 in
/-- Every catalog shape has pairwise distinct cell offsets. -/
theorem figures_cells_nodup : ∀ f ∈ FIGURES, f.cells.Nodup := by decide

/-! ## Consistency of the fill counters (for C3 and C5) -/

/-- The number of occupied cells in row y of a cell matrix. -/
def rowOccCount (m : List (List GridCell)) (y : Nat) : Nat :=
  (m.getD y []).countP (·.occupied)

/-- The number of occupied cells in column x of a cell matrix (one per row
whose cell at column x is occupied; on the 8x8 matrix this is the true
column occupancy). -/
def colOccCount (m : List (List GridCell)) (x : Nat) : Nat :=
  m.countP fun row => (row.getD x emptyCell).occupied

/-- The grid state has the fixed 8x8 dimensions. -/
def Grid.Dims (g : Grid) : Prop :=
  g.cells.length = 8 ∧ (∀ row ∈ g.cells, row.length = 8) ∧
  g.rowCounts.length = 8 ∧ g.colCounts.length = 8

/-- Every stored counter equals the true occupied count of its line. -/
def Grid.Counts (g : Grid) : Prop :=
  (∀ y < 8, g.rowCounts.getD y 0 = rowOccCount g.cells y) ∧
  (∀ x < 8, g.colCounts.getD x 0 = colOccCount g.cells x)

def Grid.Consistent (g : Grid) : Prop := g.Dims ∧ g.Counts

instance (g : Grid) : Decidable g.Dims := by unfold Grid.Dims; infer_instance

instance (g : Grid) : Decidable g.Counts := by unfold Grid.Counts; infer_instance

instance (g : Grid) : Decidable g.Consistent := by unfold Grid.Consistent; infer_instance

theorem getD_set_self' {α : Type _} (l : List α) {i : Nat} (h : i < l.length) (v d : α) :
    (l.set i v).getD i d = v := by
  simp [List.getD_eq_getElem?_getD, List.getElem?_set, h]

theorem getD_set_ne' {α : Type _} (l : List α) {i j : Nat} (h : i ≠ j) (v d : α) :
    (l.set i v).getD j d = l.getD j d := by
  simp [List.getD_eq_getElem?_getD, List.getElem?_set, h]

theorem getD_eq_getElem' {α : Type _} (l : List α) {i : Nat} (h : i < l.length) (d : α) :
    l.getD i d = l[i] := by
  simp [List.getD_eq_getElem?_getD, List.getElem?_eq_getElem h]

theorem isValidPosition_iff {x y : Int} :
    isValidPosition x y = true ↔ 0 ≤ x ∧ x < 8 ∧ 0 ≤ y ∧ y < 8 := by
  simp [isValidPosition, and_assoc]

/-- Reading a matrix cell, with Nat indices. -/
def matGet (m : List (List GridCell)) (ix iy : Nat) : GridCell :=
  (m.getD iy []).getD ix emptyCell

theorem cellAt_eq_matGet (g : Grid) (x y : Int) :
    g.cellAt x y = matGet g.cells x.toNat y.toNat := rfl

theorem matGet_setMat_ne {m : List (List GridCell)} {x y : Int} {jx jy : Nat}
    (h : jx ≠ x.toNat ∨ jy ≠ y.toNat) (v : GridCell) :
    matGet (setMat m x y v) jx jy = matGet m jx jy := by
  unfold setMat matGet
  rcases Nat.lt_or_ge y.toNat m.length with hy | hy
  · rcases h with h | h
    · by_cases hyy : jy = y.toNat
      · subst hyy
        rw [getD_set_self' _ hy, getD_set_ne' _ (Ne.symm h)]
      · rw [getD_set_ne' _ (fun hh => hyy hh.symm)]
    · rw [getD_set_ne' _ (fun hh => h hh.symm)]
  · rw [List.set_eq_of_length_le hy]

theorem matGet_setMat_self {m : List (List GridCell)} {x y : Int}
    (hy : y.toNat < m.length) (hx : x.toNat < (m.getD y.toNat []).length) (v : GridCell) :
    matGet (setMat m x y v) x.toNat y.toNat = v := by
  unfold setMat matGet
  rw [getD_set_self' _ hy, getD_set_self' _ (by simpa using hx)]

/-- For valid positions, distinct points have distinct toNat coordinates. -/
theorem valid_ne_toNat {p q : Point} (hp : isValidPosition p.x p.y = true)
    (hq : isValidPosition q.x q.y = true) (h : q ≠ p) :
    q.x.toNat ≠ p.x.toNat ∨ q.y.toNat ≠ p.y.toNat := by
  rw [isValidPosition_iff] at hp hq
  by_contra hcon
  push_neg at hcon
  apply h
  have hx : q.x = p.x := by
    have := congrArg (Int.ofNat) hcon.1
    simpa [Int.toNat_of_nonneg hq.1, Int.toNat_of_nonneg hp.1] using this
  have hy : q.y = p.y := by
    have := congrArg (Int.ofNat) hcon.2
    simpa [Int.toNat_of_nonneg hq.2.2.1, Int.toNat_of_nonneg hp.2.2.1] using this
  cases p; cases q; simp_all

theorem rowOccCount_setMat_ne {m : List (List GridCell)} {x y : Int} {j : Nat}
    (h : j ≠ y.toNat) (v : GridCell) :
    rowOccCount (setMat m x y v) j = rowOccCount m j := by
  unfold rowOccCount setMat
  rw [getD_set_ne' _ (fun hh => h hh.symm)]

theorem mem_getD_of_lt {m : List (List GridCell)} {iy : Nat} (h : iy < m.length) :
    m.getD iy [] ∈ m := by
  rw [getD_eq_getElem' _ h]
  exact List.getElem_mem h


theorem rowOccCount_setMat_self {m : List (List GridCell)} {x y : Int} {v : GridCell}
    (hylen : y.toNat < m.length) (hxlen : x.toNat < (m.getD y.toNat []).length) :
    rowOccCount (setMat m x y v) y.toNat
      = rowOccCount m y.toNat
        - (if (matGet m x.toNat y.toNat).occupied then 1 else 0)
        + (if v.occupied then 1 else 0) := by
  unfold rowOccCount setMat matGet
  rw [getD_set_self' _ hylen, List.countP_set _ _ _ _ hxlen, getD_eq_getElem' _ hxlen]

theorem colOccCount_setMat {m : List (List GridCell)} {x y : Int} {v : GridCell} {j : Nat}
    (hylen : y.toNat < m.length) :
    colOccCount (setMat m x y v) j
      = colOccCount m j
        - (if ((m.getD y.toNat []).getD j emptyCell).occupied then 1 else 0)
        + (if (((m.getD y.toNat []).set x.toNat v).getD j emptyCell).occupied then 1 else 0) := by
  unfold colOccCount setMat
  rw [List.countP_set _ _ _ _ hylen, getD_eq_getElem' _ hylen]

theorem rowOccCount_le {m : List (List GridCell)} {j : Nat}
    (h : (m.getD j []).length = 8) : rowOccCount m j ≤ 8 := by
  have := List.countP_le_length (l := m.getD j []) (p := (·.occupied))
  unfold rowOccCount
  omega

theorem colOccCount_le {m : List (List GridCell)} {j : Nat}
    (h : m.length = 8) : colOccCount m j ≤ 8 := by
  have := List.countP_le_length (l := m) (p := fun row => (row.getD j emptyCell).occupied)
  unfold colOccCount
  omega

theorem colOccCount_pointBound {m : List (List GridCell)} {iy j : Nat}
    (hylen : iy < m.length) :
    (if ((m.getD iy []).getD j emptyCell).occupied then 1 else 0) ≤ colOccCount m j := by
  have := List.boole_getElem_le_countP
    (fun row => (row.getD j emptyCell).occupied) m iy hylen
  unfold colOccCount
  rw [← getD_eq_getElem' _ hylen] at this
  exact this

/-- Placing one cell of a shape on a consistent grid at a valid, unoccupied
position preserves consistency (both counters pick up exactly the new cell;
the mod-256 wrap of the `Uint8Array` never fires since counts stay below 9). -/
theorem placeCellStep_consistent {g : Grid} {p : Point} {c : BlockColor}
    (hc : g.Consistent) (hv : isValidPosition p.x p.y = true)
    (hocc : g.occAt p.x p.y = false) :
    (g.placeCellStep p c).Consistent := by
  obtain ⟨⟨h1, h2, h3, h4⟩, hrow, hcol⟩ := hc
  obtain ⟨hx0, hx8, hy0, hy8⟩ := isValidPosition_iff.mp hv
  have hxN : p.x.toNat < 8 := by omega
  have hyN : p.y.toNat < 8 := by omega
  have hylen : p.y.toNat < g.cells.length := by omega
  have hgrowlen : (g.cells.getD p.y.toNat []).length = 8 :=
    h2 _ (mem_getD_of_lt hylen)
  have hxlen : p.x.toNat < (g.cells.getD p.y.toNat []).length := by omega
  have hoccF : (matGet g.cells p.x.toNat p.y.toNat).occupied = false := hocc
  refine ⟨⟨?_, ?_, ?_, ?_⟩, ?_, ?_⟩
  · simpa [Grid.placeCellStep, setMat] using h1
  · intro row hmem
    rcases List.mem_or_eq_of_mem_set hmem with h | h
    · exact h2 _ h
    · subst h
      simpa using hgrowlen
  · simpa [Grid.placeCellStep, bumpInc] using h3
  · simpa [Grid.placeCellStep, bumpInc] using h4
  · -- row counters
    intro j hj
    show (bumpInc g.rowCounts p.y).getD j 0 = rowOccCount (setMat g.cells p.x p.y _) j
    rcases eq_or_ne j p.y.toNat with hjy | hjy
    · subst hjy
      rw [bumpInc, getD_set_self' _ (show p.y.toNat < g.rowCounts.length by omega),
        hrow _ (by omega), rowOccCount_setMat_self hylen hxlen, hoccF]
      have hle : rowOccCount g.cells p.y.toNat ≤ 8 := rowOccCount_le hgrowlen
      simp only [Bool.false_eq_true, if_false, if_true]
      rw [Nat.mod_eq_of_lt (by omega)]
      omega
    · rw [bumpInc, getD_set_ne' _ (fun hh => hjy hh.symm), rowOccCount_setMat_ne hjy]
      exact hrow j hj
  · -- column counters
    intro j hj
    show (bumpInc g.colCounts p.x).getD j 0 = colOccCount (setMat g.cells p.x p.y _) j
    rw [colOccCount_setMat hylen]
    rcases eq_or_ne j p.x.toNat with hjx | hjx
    · subst hjx
      rw [bumpInc, getD_set_self' _ (show p.x.toNat < g.colCounts.length by omega),
        hcol _ (by omega), getD_set_self' _ hxlen]
      have hold : ((g.cells.getD p.y.toNat []).getD p.x.toNat emptyCell).occupied = false := hoccF
      rw [hold]
      have hle : colOccCount g.cells p.x.toNat ≤ 8 := colOccCount_le h1
      simp only [Bool.false_eq_true, if_false, if_true]
      rw [Nat.mod_eq_of_lt (by omega)]
      omega
    · rw [bumpInc, getD_set_ne' _ (fun hh => hjx hh.symm),
        getD_set_ne' _ (fun hh => hjx hh.symm), hcol j hj]
      have hb := colOccCount_pointBound (m := g.cells) (j := j) hylen
      omega

/-- Clearing one cell preserves consistency (the decrement matches the freed
cell; the mod-256 wrap never fires since the old count is between 1 and 8). -/
theorem clearCell_consistent {g : Grid} {x y : Int} (hc : g.Consistent) :
    (g.clearCell x y).Consistent := by
  obtain ⟨⟨h1, h2, h3, h4⟩, hrow, hcol⟩ := hc
  unfold Grid.clearCell
  by_cases hg : (isValidPosition x y && (g.cellAt x y).occupied) = true
  · rw [if_pos hg]
    rw [Bool.and_eq_true] at hg
    obtain ⟨hv, hocc⟩ := hg
    obtain ⟨hx0, hx8, hy0, hy8⟩ := isValidPosition_iff.mp hv
    have hxN : x.toNat < 8 := by omega
    have hyN : y.toNat < 8 := by omega
    have hylen : y.toNat < g.cells.length := by omega
    have hgrowlen : (g.cells.getD y.toNat []).length = 8 :=
      h2 _ (mem_getD_of_lt hylen)
    have hxlen : x.toNat < (g.cells.getD y.toNat []).length := by omega
    have hoccT : (matGet g.cells x.toNat y.toNat).occupied = true := hocc
    have hge : 1 ≤ rowOccCount g.cells y.toNat := by
      have := List.boole_getElem_le_countP (·.occupied) (g.cells.getD y.toNat []) x.toNat hxlen
      rw [← getD_eq_getElem' _ hxlen] at this
      have heq : ((g.cells.getD y.toNat []).getD x.toNat emptyCell).occupied = true := hoccT
      rw [heq] at this
      simpa [rowOccCount] using this
    refine ⟨⟨?_, ?_, ?_, ?_⟩, ?_, ?_⟩
    · simpa [setMat] using h1
    · intro row hmem
      rcases List.mem_or_eq_of_mem_set hmem with h | h
      · exact h2 _ h
      · subst h
        simpa using hgrowlen
    · simpa [bumpDec] using h3
    · simpa [bumpDec] using h4
    · intro j hj
      show (bumpDec g.rowCounts y).getD j 0 = rowOccCount (setMat g.cells x y _) j
      rcases eq_or_ne j y.toNat with hjy | hjy
      · subst hjy
        rw [bumpDec, getD_set_self' _ (show y.toNat < g.rowCounts.length by omega),
          hrow _ (by omega), rowOccCount_setMat_self hylen hxlen, hoccT]
        have hle : rowOccCount g.cells y.toNat ≤ 8 := rowOccCount_le hgrowlen
        simp only [if_true, emptyCell, Bool.false_eq_true, if_false]
        omega
      · rw [bumpDec, getD_set_ne' _ (fun hh => hjy hh.symm), rowOccCount_setMat_ne hjy]
        exact hrow j hj
    · intro j hj
      show (bumpDec g.colCounts x).getD j 0 = colOccCount (setMat g.cells x y _) j
      rw [colOccCount_setMat hylen]
      rcases eq_or_ne j x.toNat with hjx | hjx
      · subst hjx
        rw [bumpDec, getD_set_self' _ (show x.toNat < g.colCounts.length by omega),
          hcol _ (by omega), getD_set_self' _ hxlen]
        have hold : ((g.cells.getD y.toNat []).getD x.toNat emptyCell).occupied = true := hoccT
        rw [hold]
        have hle : colOccCount g.cells x.toNat ≤ 8 := colOccCount_le h1
        have hgec : 1 ≤ colOccCount g.cells x.toNat := by
          have := colOccCount_pointBound (m := g.cells) (j := x.toNat) hylen
          rw [hold] at this
          simpa using this
        simp only [if_true, emptyCell, Bool.false_eq_true, if_false]
        omega
      · rw [bumpDec, getD_set_ne' _ (fun hh => hjx hh.symm),
          getD_set_ne' _ (fun hh => hjx hh.symm), hcol j hj]
        have hb := colOccCount_pointBound (m := g.cells) (j := j) hylen
        omega
  · rw [if_neg hg]
    exact ⟨⟨h1, h2, h3, h4⟩, hrow, hcol⟩

/-- Occupancy of any other valid position is unchanged by placing a cell. -/
theorem occAt_placeCellStep_ne {g : Grid} {p q : Point} {c : BlockColor}
    (hp : isValidPosition p.x p.y = true) (hq : isValidPosition q.x q.y = true)
    (hne : q ≠ p) :
    (g.placeCellStep p c).occAt q.x q.y = g.occAt q.x q.y := by
  unfold Grid.occAt
  rw [cellAt_eq_matGet, cellAt_eq_matGet]
  show (matGet (setMat g.cells p.x p.y _) q.x.toNat q.y.toNat).occupied = _
  rw [matGet_setMat_ne (valid_ne_toNat hp hq hne)]

/-- The placement loop of `place` preserves consistency when the placed
positions are pairwise distinct, valid, and unoccupied at the start. -/
theorem placeLoop_consistent {c : BlockColor} :
    ∀ (ps : List Point) (g : Grid), g.Consistent → ps.Nodup →
      (∀ p ∈ ps, isValidPosition p.x p.y = true ∧ g.occAt p.x p.y = false) →
      (ps.foldl (fun h p => h.placeCellStep p c) g).Consistent
  | [], _, hc, _, _ => hc
  | p :: rest, g, hc, hnd, hall => by
      simp only [List.foldl_cons]
      have hv := (hall p (List.mem_cons_self p rest)).1
      have hocc := (hall p (List.mem_cons_self p rest)).2
      apply placeLoop_consistent rest _ (placeCellStep_consistent hc hv hocc)
        (List.Nodup.of_cons hnd)
      intro q hq
      have hqv := (hall q (List.mem_cons_of_mem _ hq)).1
      have hqocc := (hall q (List.mem_cons_of_mem _ hq)).2
      have hne : q ≠ p := fun h => (List.nodup_cons.mp hnd).1 (h ▸ hq)
      exact ⟨hqv, (occAt_placeCellStep_ne hv hqv hne).trans hqocc⟩

/-- When `canPlace` holds, every placement cell is valid and unoccupied. -/
theorem canPlace_forall {g : Grid} {shape : BlockShape} {gridPos : Point}
    (h : g.canPlace shape gridPos = true) :
    ∀ p ∈ placementCells shape gridPos,
      isValidPosition p.x p.y = true ∧ g.occAt p.x p.y = false := by
  intro p hp
  unfold Grid.canPlace at h
  rw [List.all_eq_true] at h
  have hh := h p hp
  rw [Bool.and_eq_true] at hh
  exact ⟨hh.1, by simpa [Grid.occAt] using hh.2⟩

/-- Normalization is a translation, so distinct shape cells give distinct
placement positions. -/
theorem placementCells_nodup {shape : BlockShape} {gridPos : Point}
    (h : shape.cells.Nodup) : (placementCells shape gridPos).Nodup := by
  unfold placementCells
  refine List.Nodup.map ?_ h
  intro a b hab
  rcases a with ⟨a1, a2⟩
  rcases b with ⟨b1, b2⟩
  simp only [Point.mk.injEq] at hab
  have e1 : a1 = b1 := by omega
  have e2 : a2 = b2 := by omega
  simp [e1, e2]

/-- `place` preserves the counter invariant for shapes with distinct cells. -/
theorem place_consistent {g : Grid} {shape : BlockShape} {gridPos : Point}
    {color : BlockColor} (hc : g.Consistent) (hnd : shape.cells.Nodup) :
    ((g.place shape gridPos color).1).Consistent := by
  unfold Grid.place
  by_cases h : g.canPlace shape gridPos = true
  · rw [if_pos h]
    exact placeLoop_consistent _ _ hc (placementCells_nodup hnd) (canPlace_forall h)
  · rw [if_neg h]
    exact hc

/-- `clearCells` preserves the counter invariant. -/
theorem clearCells_consistent : ∀ (cs : List Point) (g : Grid), g.Consistent →
    (g.clearCells cs).Consistent
  | [], _, hc => hc
  | p :: rest, g, hc => by
      show ((g.clearCell p.x p.y).clearCells rest).Consistent
      exact clearCells_consistent rest _ (clearCell_consistent hc)

/-- `clearLines` preserves the counter invariant. -/
theorem clearLines_consistent {g : Grid} {idx : List Nat} (hc : g.Consistent) :
    ((g.clearLines idx).1).Consistent :=
  clearCells_consistent _ _ hc

theorem empty_consistent : Grid.empty.Consistent := by decide

/-- The grid states reachable from a fresh empty board by `place` and
`clearLines` calls, with shapes drawn from the catalog. -/
inductive Grid.Reach : Grid → Prop where
  | init : Grid.Reach Grid.empty
  | place (g : Grid) (shape : BlockShape) (gridPos : Point) (color : BlockColor) :
      Grid.Reach g → shape ∈ FIGURES → Grid.Reach (g.place shape gridPos color).1
  | clear (g : Grid) (lineIndices : List Nat) :
      Grid.Reach g → Grid.Reach (g.clearLines lineIndices).1

/-- Any reachable grid state is fully consistent (8x8 dimensions plus exact
counters). -/
theorem reach_consistent {g : Grid} (h : g.Reach) : g.Consistent := by
  induction h with
  | init => exact empty_consistent
  | place g shape gridPos color _ hmem ih =>
      exact place_consistent ih (figures_cells_nodup _ hmem)
  | clear g idx _ ih => exact clearLines_consistent ih

/-- C3: starting from a fresh empty board, after every sequence of `place`
and `clearLines` calls, `rowFillCount[y]` equals the number of occupied cells
in row y and `colFillCount[x]` equals the number of occupied cells in column
x, for all x and y in 0..7. -/
theorem reach_fill_counts (g : Grid) (h : g.Reach) :
    (∀ y < 8, g.rowCounts.getD y 0 = rowOccCount g.cells y) ∧
    (∀ x < 8, g.colCounts.getD x 0 = colOccCount g.cells x) :=
  (reach_consistent h).2

theorem reach_fill_counts_witness :
    (Grid.empty.place figIv1 ⟨0, 0⟩ BlockColor.Red).1.rowCounts.getD 0 0
      = rowOccCount (Grid.empty.place figIv1 ⟨0, 0⟩ BlockColor.Red).1.cells 0 :=
  (reach_fill_counts _ (Grid.Reach.place Grid.empty figIv1 ⟨0, 0⟩ BlockColor.Red
    Grid.Reach.init (by decide))).1 0 (by decide)

/-! ## C5: place followed by clearLines of the reported lines -/

/-- Clearing one cell leaves every other position of the grid unchanged. -/
theorem getCell_clearCell_ne {g : Grid} {a b x y : Int}
    (h : (Point.mk x y) ≠ ⟨a, b⟩) :
    (g.clearCell a b).getCell x y = g.getCell x y := by
  unfold Grid.clearCell
  by_cases hg : (isValidPosition a b && (g.cellAt a b).occupied) = true
  · rw [if_pos hg]
    rw [Bool.and_eq_true] at hg
    unfold Grid.getCell
    by_cases hv : isValidPosition x y = true
    · rw [if_pos hv, if_pos hv]
      congr 1
      rw [cellAt_eq_matGet, cellAt_eq_matGet]
      exact matGet_setMat_ne (valid_ne_toNat hg.1 hv h) emptyCell
    · rw [if_neg hv, if_neg hv]
  · rw [if_neg hg]

/-- Clearing a list of cells leaves every position outside the list
unchanged. -/
theorem getCell_clearCells_notMem : ∀ (cs : List Point) (g : Grid) {x y : Int},
    (Point.mk x y) ∉ cs → (g.clearCells cs).getCell x y = g.getCell x y
  | [], _, _, _, _ => rfl
  | p :: rest, g, x, y, h => by
      show ((g.clearCell p.x p.y).clearCells rest).getCell x y = _
      rw [getCell_clearCells_notMem rest _ (fun hh => h (List.mem_cons_of_mem _ hh)),
        @getCell_clearCell_ne g p.x p.y x y (fun he => h (he ▸ List.mem_cons_self p rest))]

/-- `clearCell` never occupies a cell: an unoccupied position stays
unoccupied. -/
theorem occAt_clearCell_false {g : Grid} {a b x y : Int}
    (h : g.occAt x y = false) : (g.clearCell a b).occAt x y = false := by
  unfold Grid.clearCell
  by_cases hg : (isValidPosition a b && (g.cellAt a b).occupied) = true
  · rw [if_pos hg]
    show (matGet (setMat g.cells a b emptyCell) x.toNat y.toNat).occupied = false
    by_cases hxy : x.toNat ≠ a.toNat ∨ y.toNat ≠ b.toNat
    · rw [matGet_setMat_ne hxy]
      exact h
    · push_neg at hxy
      obtain ⟨hx, hy⟩ := hxy
      unfold matGet setMat
      rw [hx, hy]
      rcases Nat.lt_or_ge b.toNat g.cells.length with hlt | hge
      · rw [getD_set_self' _ hlt]
        rcases Nat.lt_or_ge a.toNat (g.cells.getD b.toNat []).length with hlt2 | hge2
        · rw [getD_set_self' _ hlt2]
          rfl
        · rw [List.set_eq_of_length_le hge2]
          rw [← hx, ← hy]
          exact h
      · rw [List.set_eq_of_length_le hge]
        rw [← hx, ← hy]
        exact h
  · rw [if_neg hg]
    exact h

theorem occAt_clearCells_false : ∀ (cs : List Point) (g : Grid) {x y : Int},
    g.occAt x y = false → (g.clearCells cs).occAt x y = false
  | [], _, _, _, h => h
  | p :: rest, g, _, _, h => by
      show ((g.clearCell p.x p.y).clearCells rest).occAt _ _ = false
      exact occAt_clearCells_false rest _ (occAt_clearCell_false h)

/-- Right after `clearCell` at a valid position, that position is
unoccupied. -/
theorem occAt_clearCell_self {g : Grid} {x y : Int}
    (hv : isValidPosition x y = true) :
    (g.clearCell x y).occAt x y = false := by
  unfold Grid.clearCell
  by_cases hg : (isValidPosition x y && (g.cellAt x y).occupied) = true
  · rw [if_pos hg]
    rw [Bool.and_eq_true] at hg
    have hocc : (g.cellAt x y).occupied = true := hg.2
    have hylen : y.toNat < g.cells.length := by
      by_contra hge
      push_neg at hge
      have hnil : g.cells.getD y.toNat [] = [] := by
        rw [List.getD_eq_getElem?_getD, List.getElem?_eq_none hge]
        rfl
      have hf : (g.cellAt x y).occupied = false := by
        unfold Grid.cellAt
        rw [hnil]
        rfl
      rw [hf] at hocc
      cases hocc
    have hxlen : x.toNat < (g.cells.getD y.toNat []).length := by
      by_contra hge
      push_neg at hge
      have hf : (g.cellAt x y).occupied = false := by
        unfold Grid.cellAt
        rw [List.getD_eq_getElem?_getD (g.cells.getD y.toNat []),
          List.getElem?_eq_none hge]
        rfl
      rw [hf] at hocc
      cases hocc
    show (matGet (setMat g.cells x y emptyCell) x.toNat y.toNat).occupied = false
    rw [matGet_setMat_self hylen hxlen]
    rfl
  · rw [if_neg hg]
    rw [Bool.and_eq_true] at hg
    unfold Grid.occAt
    cases hocc : (g.cellAt x y).occupied with
    | false => rfl
    | true => exact absurd ⟨hv, hocc⟩ hg

/-- After `clearCells`, every valid listed position is unoccupied. -/
theorem occAt_clearCells_mem : ∀ (cs : List Point) (g : Grid),
    (∀ p ∈ cs, isValidPosition p.x p.y = true) →
    ∀ p ∈ cs, (g.clearCells cs).occAt p.x p.y = false
  | [], _, _, p, hp => absurd hp (by simp)
  | q :: rest, g, hval, p, hp => by
      show ((g.clearCell q.x q.y).clearCells rest).occAt p.x p.y = false
      rcases List.mem_cons.mp hp with h | h
      · subst h
        by_cases hmem : p ∈ rest
        · exact occAt_clearCells_mem rest _
            (fun r hr => hval r (List.mem_cons_of_mem _ hr)) p hmem
        · exact occAt_clearCells_false rest _
            (occAt_clearCell_self (hval p (List.mem_cons_self _ _)))
      · exact occAt_clearCells_mem rest _
          (fun r hr => hval r (List.mem_cons_of_mem _ hr)) p h

/-- Cells of a line with index below 16 are valid grid positions. -/
theorem getLineCells_valid {i : Nat} (hi : i < 16) :
    ∀ p ∈ getLineCells i, isValidPosition p.x p.y = true := by
  intro p hp
  unfold getLineCells at hp
  rw [isValidPosition_iff]
  by_cases h8 : i < 8
  · rw [if_pos h8] at hp
    obtain ⟨x, hx, rfl⟩ := List.mem_map.mp hp
    rw [List.mem_range] at hx
    dsimp only
    rw [Int.ofNat_eq_coe]
    omega
  · rw [if_neg h8] at hp
    obtain ⟨y, hy, rfl⟩ := List.mem_map.mp hp
    rw [List.mem_range] at hy
    push_neg at h8
    dsimp only
    rw [Int.ofNat_eq_coe]
    omega

/-- `findCompletedLines` only produces indices below 16. -/
theorem findCompletedLines_lt (g : Grid) : ∀ i ∈ g.findCompletedLines, i < 16 := by
  intro i hi
  unfold Grid.findCompletedLines at hi
  rcases List.mem_append.mp hi with h | h
  · obtain ⟨y, hy, hsome⟩ := List.mem_filterMap.mp h
    rw [List.mem_range] at hy
    by_cases hc : g.rowCounts.getD y 0 = 8
    · rw [if_pos hc] at hsome
      cases hsome
      omega
    · rw [if_neg hc] at hsome
      cases hsome
  · obtain ⟨x, hx, hsome⟩ := List.mem_filterMap.mp h
    rw [List.mem_range] at hx
    by_cases hc : g.colCounts.getD x 0 = 8
    · rw [if_pos hc] at hsome
      cases hsome
      omega
    · rw [if_neg hc] at hsome
      cases hsome

/-- Members of the dedup fold over one line come from the accumulator or the
line. -/
theorem mem_dedupFold : ∀ (ls : List Point) (acc : List Point) {p : Point},
    p ∈ ls.foldl dedupInsert acc → p ∈ acc ∨ p ∈ ls
  | [], _, _, h => Or.inl h
  | c :: rest, acc, p, h => by
      rcases mem_dedupFold rest (dedupInsert acc c) h with h1 | h1
      · unfold dedupInsert at h1
        by_cases hc : c ∈ acc
        · rw [if_pos hc] at h1
          exact Or.inl h1
        · rw [if_neg hc] at h1
          rcases List.mem_append.mp h1 with h2 | h2
          · exact Or.inl h2
          · have h3 := List.mem_singleton.mp h2
            subst h3
            exact Or.inr (List.mem_cons_self _ _)
      · exact Or.inr (List.mem_cons_of_mem _ h1)

theorem mem_cellsToClearFold : ∀ (idx : List Nat) (acc : List Point) {p : Point},
    p ∈ idx.foldl (fun acc i => (getLineCells i).foldl dedupInsert acc) acc →
    p ∈ acc ∨ ∃ i ∈ idx, p ∈ getLineCells i
  | [], _, _, h => Or.inl h
  | i :: rest, acc, p, h => by
      rcases mem_cellsToClearFold rest _ h with h1 | h1
      · rcases mem_dedupFold _ _ h1 with h2 | h2
        · exact Or.inl h2
        · exact Or.inr ⟨i, List.mem_cons_self _ _, h2⟩
      · obtain ⟨j, hj, hp⟩ := h1
        exact Or.inr ⟨j, List.mem_cons_of_mem _ hj, hp⟩

/-- Every cell listed for clearing comes from one of the given lines. -/
theorem mem_getCellsToClear {idx : List Nat} {p : Point}
    (h : p ∈ getCellsToClear idx) : ∃ i ∈ idx, p ∈ getLineCells i := by
  rcases mem_cellsToClearFold idx [] h with h1 | h1
  · cases h1
  · exact h1

theorem getCellsToClear_valid {idx : List Nat} (h : ∀ i ∈ idx, i < 16) :
    ∀ p ∈ getCellsToClear idx, isValidPosition p.x p.y = true := by
  intro p hp
  obtain ⟨i, hi, hp2⟩ := mem_getCellsToClear hp
  exact getLineCells_valid (h i hi) p hp2

/-- Placing one cell leaves every other position unchanged. -/
theorem getCell_placeCellStep_ne {g : Grid} {p : Point} {c : BlockColor} {x y : Int}
    (hp : isValidPosition p.x p.y = true) (h : (Point.mk x y) ≠ p) :
    (g.placeCellStep p c).getCell x y = g.getCell x y := by
  unfold Grid.getCell
  by_cases hv : isValidPosition x y = true
  · rw [if_pos hv, if_pos hv]
    congr 1
    rw [cellAt_eq_matGet, cellAt_eq_matGet]
    exact matGet_setMat_ne (valid_ne_toNat hp hv h) _
  · rw [if_neg hv, if_neg hv]

/-- The placement loop leaves every position outside the placed cells
unchanged. -/
theorem getCell_placeLoop_notMem {c : BlockColor} :
    ∀ (ps : List Point) (g : Grid) {x y : Int},
    (∀ p ∈ ps, isValidPosition p.x p.y = true) →
    (Point.mk x y) ∉ ps →
    (ps.foldl (fun h p => h.placeCellStep p c) g).getCell x y = g.getCell x y
  | [], _, _, _, _, _ => rfl
  | p :: rest, g, x, y, hval, hnm => by
      simp only [List.foldl_cons]
      rw [getCell_placeLoop_notMem rest _
          (fun q hq => hval q (List.mem_cons_of_mem _ hq))
          (fun hh => hnm (List.mem_cons_of_mem _ hh))]
      exact @getCell_placeCellStep_ne g p c x y (hval p (List.mem_cons_self _ _))
        (fun hh => hnm (by rw [hh]; exact List.mem_cons_self p rest))

/-- On success, `place` returns the loop result and the completed lines of
the new state. -/
theorem place_eq_of_canPlace {g : Grid} {shape : BlockShape} {gridPos : Point}
    {color : BlockColor} (h : g.canPlace shape gridPos = true) :
    (g.place shape gridPos color).1
      = (placementCells shape gridPos).foldl (fun h p => h.placeCellStep p color) g := by
  unfold Grid.place
  rw [if_pos h]

/-- A successful `place` implies `canPlace`. -/
theorem canPlace_of_success {g : Grid} {shape : BlockShape} {gridPos : Point}
    {color : BlockColor} (h : (g.place shape gridPos color).2.success = true) :
    g.canPlace shape gridPos = true := by
  by_cases hc : g.canPlace shape gridPos = true
  · exact hc
  · exfalso
    unfold Grid.place at h
    rw [if_neg hc] at h
    cases h

/-- The horizontal 4-line shape Ig4 from the catalog. -/
def figIg4 : BlockShape := ⟨"Ig4", 4, [(0, 0), (1, 0), (2, 0), (3, 0)]⟩

/-- The horizontal 3-line shape Ig3 from the catalog. -/
def figIg3 : BlockShape := ⟨"Ig3", 3, [(0, 0), (1, 0), (2, 0)]⟩

/-- The vertical domino Iv2 from the catalog. -/
def figIv2 : BlockShape := ⟨"Iv2", 2, [(0, 0), (0, 1)]⟩

/-- The pre-placement board of the C5 counterexample: row 0 holds seven
occupied cells (columns 0..6). -/
def c5Pre : Grid :=
  ((Grid.empty.place figIg4 ⟨0, 0⟩ BlockColor.Red).1.place figIg3 ⟨4, 0⟩ BlockColor.Blue).1

/-- C5 counterexample: placing the vertical domino Iv2 at (7,0) on a board
whose row 0 holds seven cells completes row 0; clearing exactly that reported
line leaves cell (7,1) — outside the cleared region — occupied, though it was
empty before the placement.  The board is not identical to its pre-placement
state outside the cleared region. -/
theorem place_clearLines_not_pre_state :
    ((c5Pre.place figIv2 ⟨7, 0⟩ BlockColor.Green).2.success = true) ∧
    ((Point.mk 7 1) ∉ getCellsToClear
        (c5Pre.place figIv2 ⟨7, 0⟩ BlockColor.Green).2.linesCompleted) ∧
    (((c5Pre.place figIv2 ⟨7, 0⟩ BlockColor.Green).1.clearLines
        (c5Pre.place figIv2 ⟨7, 0⟩ BlockColor.Green).2.linesCompleted).1.getCell 7 1
      ≠ c5Pre.getCell 7 1) := by
  decide

/-- All indices reported in `linesCompleted` are below 16. -/
theorem place_linesCompleted_lt (g : Grid) (shape : BlockShape) (gridPos : Point)
    (color : BlockColor) :
    ∀ i ∈ (g.place shape gridPos color).2.linesCompleted, i < 16 := by
  unfold Grid.place
  by_cases h : g.canPlace shape gridPos = true
  · rw [if_pos h]
    exact findCompletedLines_lt _
  · rw [if_neg h]
    intro i hi
    cases hi

/-- C5 (amended): after a successful `place`, clearing exactly the reported
completed lines (i) changes nothing outside the cleared region relative to
the post-placement state, (ii) leaves every cell outside the cleared region
and outside the placed footprint identical to the pre-placement state,
(iii) leaves every cell of the cleared region unoccupied (no phantom
occupied cells), and (iv) keeps the fill counters consistent with occupancy
(no counter drift) whenever the starting grid is consistent and the shape has
pairwise distinct cells, as every catalog shape does. -/
theorem place_then_clearLines_frame (g : Grid) (shape : BlockShape) (gridPos : Point)
    (color : BlockColor)
    (hsucc : (g.place shape gridPos color).2.success = true) :
    (∀ x y : Int,
       (Point.mk x y) ∉ getCellsToClear (g.place shape gridPos color).2.linesCompleted →
       ((g.place shape gridPos color).1.clearLines
           (g.place shape gridPos color).2.linesCompleted).1.getCell x y
         = (g.place shape gridPos color).1.getCell x y) ∧
    (∀ x y : Int,
       (Point.mk x y) ∉ getCellsToClear (g.place shape gridPos color).2.linesCompleted →
       (Point.mk x y) ∉ placementCells shape gridPos →
       ((g.place shape gridPos color).1.clearLines
           (g.place shape gridPos color).2.linesCompleted).1.getCell x y
         = g.getCell x y) ∧
    (∀ p ∈ getCellsToClear (g.place shape gridPos color).2.linesCompleted,
       ((g.place shape gridPos color).1.clearLines
           (g.place shape gridPos color).2.linesCompleted).1.occAt p.x p.y = false) ∧
    (g.Consistent → shape.cells.Nodup →
       ((g.place shape gridPos color).1.clearLines
           (g.place shape gridPos color).2.linesCompleted).1.Consistent) := by
  have hcp := canPlace_of_success hsucc
  refine ⟨?_, ?_, ?_, ?_⟩
  · intro x y hout
    exact getCell_clearCells_notMem _ _ hout
  · intro x y hout hpl
    rw [show ((g.place shape gridPos color).1.clearLines
          (g.place shape gridPos color).2.linesCompleted).1
        = (g.place shape gridPos color).1.clearCells
            (getCellsToClear (g.place shape gridPos color).2.linesCompleted) from rfl]
    rw [getCell_clearCells_notMem _ _ hout, place_eq_of_canPlace hcp]
    exact getCell_placeLoop_notMem _ _ (fun p hp => (canPlace_forall hcp p hp).1) hpl
  · intro p hp
    exact occAt_clearCells_mem _ _
      (getCellsToClear_valid (place_linesCompleted_lt g shape gridPos color)) p hp
  · intro hcons hnd
    exact clearLines_consistent (place_consistent hcons hnd)

theorem place_then_clearLines_frame_witness :
    (((Grid.empty.place figIv1 ⟨0, 0⟩ BlockColor.Red).1.clearLines
        (Grid.empty.place figIv1 ⟨0, 0⟩ BlockColor.Red).2.linesCompleted).1.getCell 3 3
      = Grid.empty.getCell 3 3) ∧
    ((Grid.empty.place figIv1 ⟨0, 0⟩ BlockColor.Red).1.clearLines
        (Grid.empty.place figIv1 ⟨0, 0⟩ BlockColor.Red).2.linesCompleted).1.Consistent := by
  have h := place_then_clearLines_frame Grid.empty figIv1 ⟨0, 0⟩ BlockColor.Red (by decide)
  exact ⟨h.2.1 3 3 (by decide) (by decide), h.2.2.2 (by decide) (by decide)⟩

/-! ## C10: optimized versus naive getCompletableLines -/

/-- `getCompletableLines` of the earlier Grid implementation kept among the
unnamed sources: clone the cell matrix, mark the placement cells occupied
(color null), then scan every row and column of the clone.  Its `canPlace`
is textually identical to the current one and reads only the cells. -/
def Grid.naiveGetCompletableLines (g : Grid) (shape : BlockShape) (gridPos : Point) :
    List Nat :=
  if g.canPlace shape gridPos then
    let tempCells := (placementCells shape gridPos).foldl
      (fun m p => setMat m p.x p.y ⟨true, none⟩) g.cells
    ((List.range 8).filterMap fun y =>
      if (List.range 8).all (fun x => (matGet tempCells x y).occupied)
      then some y else none)
    ++ ((List.range 8).filterMap fun x =>
      if (List.range 8).all (fun y => (matGet tempCells x y).occupied)
      then some (x + 8) else none)
  else []

set_option maxRecDepth 4000 in
/-- Every catalog shape has fewer than 256 cells (so the `Uint8Array`
additions counters of the optimized query can never wrap). -/
theorem figures_cells_short : ∀ f ∈ FIGURES, f.cells.length < 256 := by decide

/-- A countP over a list equals the countP of its index range. -/
theorem countP_eq_range_countP {α : Type _} (d : α) (p : α → Bool) :
    ∀ l : List α, l.countP p = (List.range l.length).countP fun i => p (l.getD i d)
  | [] => rfl
  | a :: t => by
      rw [List.countP_cons, List.length_cons, List.range_succ_eq_map,
        List.countP_cons, List.countP_map, countP_eq_range_countP d p t]
      rfl

/-- countP of a pointwise-disjoint disjunction splits into a sum. -/
theorem countP_or_disjoint {α : Type _} (p q : α → Bool) :
    ∀ l : List α, (∀ a ∈ l, ¬(p a = true ∧ q a = true)) →
      l.countP (fun a => p a || q a) = l.countP p + l.countP q
  | [], _ => rfl
  | a :: t, h => by
      rw [List.countP_cons, List.countP_cons, List.countP_cons,
        countP_or_disjoint p q t (fun b hb => h b (List.mem_cons_of_mem _ hb))]
      cases hp : p a with
      | true =>
        cases hq : q a with
        | true => exact absurd ⟨hp, hq⟩ (h a (List.mem_cons_self _ _))
        | false =>
          simp only [hp, hq, Bool.true_or, if_true, Bool.false_eq_true, if_false]
          omega
      | false =>
        cases hq : q a with
        | true =>
          simp only [hp, hq, Bool.false_or, if_true, Bool.false_eq_true, if_false]
          omega
        | false =>
          simp only [hp, hq, Bool.false_or, Bool.false_eq_true, if_false]
          omega

/-- Counting the x positions of row y that land in a duplicate-free list of
valid points equals counting the points of the list lying in row y. -/
theorem row_mem_count (y : Int) :
    ∀ l : List Point, l.Nodup → (∀ p ∈ l, 0 ≤ p.x ∧ p.x < 8) →
      ((List.range 8).countP fun x => decide ((Point.mk (Int.ofNat x) y) ∈ l))
        = l.countP fun p => p.y == y
  | [], _, _ => by simp
  | q :: rest, hnd, hb => by
      have hq := hb q (List.mem_cons_self _ _)
      have hnotmem := (List.nodup_cons.mp hnd).1
      have hstep : ∀ x ∈ List.range 8,
          (decide ((Point.mk (Int.ofNat x) y) ∈ q :: rest) = true)
            ↔ (((decide ((Point.mk (Int.ofNat x) y) = q))
                || decide ((Point.mk (Int.ofNat x) y) ∈ rest)) = true) := by
        intro x _
        simp [List.mem_cons]
      rw [List.countP_congr hstep,
        countP_or_disjoint _ _ _ (by
          intro x _ hcon
          obtain ⟨h1, h2⟩ := hcon
          rw [decide_eq_true_eq] at h1 h2
          exact hnotmem (h1 ▸ h2)),
        row_mem_count y rest (List.Nodup.of_cons hnd)
          (fun p hp => hb p (List.mem_cons_of_mem _ hp)),
        List.countP_cons]
      have hkey : ((List.range 8).countP fun x => decide ((Point.mk (Int.ofNat x) y) = q))
          = (if (q.y == y) = true then 1 else 0) := by
        by_cases hqy : q.y = y
        · have hmem : q.x.toNat ∈ List.range 8 := by
            rw [List.mem_range]
            omega
          have hpt : ∀ x : Nat, ((Point.mk (Int.ofNat x) y) = q) ↔ x = q.x.toNat := by
            intro x
            constructor
            · intro he
              have hx : Int.ofNat x = q.x := congrArg Point.x he
              rw [Int.ofNat_eq_coe] at hx
              omega
            · intro he
              subst he
              have hx : Int.ofNat q.x.toNat = q.x := by
                rw [Int.ofNat_eq_coe]
                omega
              have hyy : y = q.y := hqy.symm
              rw [hx, hyy]
          have hcnt : ((List.range 8).countP fun x => decide ((Point.mk (Int.ofNat x) y) = q))
              = (List.range 8).count q.x.toNat := by
            rw [List.count_eq_countP]
            refine List.countP_congr ?_
            intro x _
            rw [decide_eq_true_eq, beq_iff_eq]
            exact hpt x
          rw [hcnt, List.count_eq_one_of_mem (List.nodup_range 8) hmem]
          have : (q.y == y) = true := by
            rw [beq_iff_eq]
            exact hqy
          rw [this, if_pos rfl]
        · have hz : ((List.range 8).countP fun x => decide ((Point.mk (Int.ofNat x) y) = q))
              = 0 := by
            rw [List.countP_eq_zero]
            intro x _
            rw [decide_eq_true_eq]
            intro he
            exact hqy (congrArg Point.y he).symm
          have : (q.y == y) = false := by
            rw [beq_eq_false_iff_ne]
            exact hqy
          rw [hz, this]
          rfl
      rw [hkey]
      omega

/-- Column analogue of `row_mem_count`. -/
theorem col_mem_count (x : Int) :
    ∀ l : List Point, l.Nodup → (∀ p ∈ l, 0 ≤ p.y ∧ p.y < 8) →
      ((List.range 8).countP fun y => decide ((Point.mk x (Int.ofNat y)) ∈ l))
        = l.countP fun p => p.x == x
  | [], _, _ => by simp
  | q :: rest, hnd, hb => by
      have hq := hb q (List.mem_cons_self _ _)
      have hnotmem := (List.nodup_cons.mp hnd).1
      have hstep : ∀ y ∈ List.range 8,
          (decide ((Point.mk x (Int.ofNat y)) ∈ q :: rest) = true)
            ↔ (((decide ((Point.mk x (Int.ofNat y)) = q))
                || decide ((Point.mk x (Int.ofNat y)) ∈ rest)) = true) := by
        intro y _
        simp [List.mem_cons]
      rw [List.countP_congr hstep,
        countP_or_disjoint _ _ _ (by
          intro y _ hcon
          obtain ⟨h1, h2⟩ := hcon
          rw [decide_eq_true_eq] at h1 h2
          exact hnotmem (h1 ▸ h2)),
        col_mem_count x rest (List.Nodup.of_cons hnd)
          (fun p hp => hb p (List.mem_cons_of_mem _ hp)),
        List.countP_cons]
      have hkey : ((List.range 8).countP fun y => decide ((Point.mk x (Int.ofNat y)) = q))
          = (if (q.x == x) = true then 1 else 0) := by
        by_cases hqx : q.x = x
        · have hmem : q.y.toNat ∈ List.range 8 := by
            rw [List.mem_range]
            omega
          have hpt : ∀ y : Nat, ((Point.mk x (Int.ofNat y)) = q) ↔ y = q.y.toNat := by
            intro y
            constructor
            · intro he
              have hy : Int.ofNat y = q.y := congrArg Point.y he
              rw [Int.ofNat_eq_coe] at hy
              omega
            · intro he
              subst he
              have hy : Int.ofNat q.y.toNat = q.y := by
                rw [Int.ofNat_eq_coe]
                omega
              have hxx : x = q.x := hqx.symm
              rw [hy, hxx]
          have hcnt : ((List.range 8).countP fun y => decide ((Point.mk x (Int.ofNat y)) = q))
              = (List.range 8).count q.y.toNat := by
            rw [List.count_eq_countP]
            refine List.countP_congr ?_
            intro y _
            rw [decide_eq_true_eq, beq_iff_eq]
            exact hpt y
          rw [hcnt, List.count_eq_one_of_mem (List.nodup_range 8) hmem]
          have : (q.x == x) = true := by
            rw [beq_iff_eq]
            exact hqx
          rw [this, if_pos rfl]
        · have hz : ((List.range 8).countP fun y => decide ((Point.mk x (Int.ofNat y)) = q))
              = 0 := by
            rw [List.countP_eq_zero]
            intro y _
            rw [decide_eq_true_eq]
            intro he
            exact hqx (congrArg Point.x he).symm
          have : (q.x == x) = false := by
            rw [beq_eq_false_iff_ne]
            exact hqx
          rw [hz, this]
          rfl
      rw [hkey]
      omega

theorem getD_replicate_zero (k : Nat) : (List.replicate 8 (0 : Nat)).getD k 0 = 0 := by
  rw [List.getD_eq_getElem?_getD, List.getElem?_replicate]
  split
  · rfl
  · rfl

/-- Value of one slot of an additions array after the bump loop: while the
final count stays below 256 the Uint8Array wrap never fires, so the slot
holds the plain count of placement cells mapped to it. -/
theorem buildAdd_getD (coord : Point → Int) :
    ∀ (ps : List Point) (arr : List Nat), arr.length = 8 →
      (∀ p ∈ ps, 0 ≤ coord p ∧ coord p < 8) →
      (∀ k, k < 8 → arr.getD k 0 + (ps.countP fun p => (coord p).toNat == k) < 256) →
      ∀ j, j < 8 →
      (ps.foldl (fun a p => bumpInc a (coord p)) arr).getD j 0
        = arr.getD j 0 + (ps.countP fun p => (coord p).toNat == j)
  | [], arr, _, _, _, j, _ => by simp
  | p :: rest, arr, hlen, hv, hb, j, hj => by
      simp only [List.foldl_cons]
      have hp := hv p (List.mem_cons_self _ _)
      have hcN : (coord p).toNat < 8 := by omega
      have harr2len : (bumpInc arr (coord p)).length = 8 := by
        simp [bumpInc, hlen]
      have hval2 : ∀ k, k < 8 → (bumpInc arr (coord p)).getD k 0
          = arr.getD k 0 + (if (coord p).toNat = k then 1 else 0) := by
        intro k hk
        unfold bumpInc
        rcases eq_or_ne k (coord p).toNat with he | hne
        · subst he
          rw [getD_set_self' _ (show (coord p).toNat < arr.length by omega)]
          have hone : (List.countP (fun q => ((coord q).toNat == (coord p).toNat)) (p :: rest))
              = (List.countP (fun q => ((coord q).toNat == (coord p).toNat)) rest) + 1 := by
            rw [List.countP_cons]
            simp
          have hbk := hb (coord p).toNat hcN
          rw [hone] at hbk
          rw [Nat.mod_eq_of_lt (by omega), if_pos rfl]
        · rw [getD_set_ne' _ (fun hh => hne hh.symm), if_neg (fun hh => hne hh.symm)]
          omega
      have hb2 : ∀ k, k < 8 → (bumpInc arr (coord p)).getD k 0
          + (rest.countP fun q => (coord q).toNat == k) < 256 := by
        intro k hk
        rw [hval2 k hk]
        have hbk := hb k hk
        rw [List.countP_cons] at hbk
        rcases eq_or_ne ((coord p).toNat) k with he | hne
        · rw [if_pos he]
          rw [if_pos (by rw [beq_iff_eq]; exact he)] at hbk
          omega
        · rw [if_neg hne]
          rw [if_neg (by rw [beq_iff_eq]; exact hne)] at hbk
          omega
      rw [buildAdd_getD coord rest (bumpInc arr (coord p)) harr2len
        (fun q hq => hv q (List.mem_cons_of_mem _ hq)) hb2 j hj,
        hval2 j hj, List.countP_cons]
      rcases eq_or_ne ((coord p).toNat) j with he | hne
      · rw [if_pos he, if_pos (by rw [beq_iff_eq]; exact he)]
        omega
      · rw [if_neg hne, if_neg (by rw [beq_iff_eq]; exact hne)]
        omega

theorem buildAdditions_getD (coord : Point → Int) (ps : List Point)
    (hv : ∀ p ∈ ps, 0 ≤ coord p ∧ coord p < 8) (hlen : ps.length < 256)
    {j : Nat} (hj : j < 8) :
    (buildAdditions coord ps).getD j 0 = ps.countP fun p => (coord p).toNat == j := by
  unfold buildAdditions
  have hcb := List.countP_le_length (l := ps) (p := fun p => (coord p).toNat == j)
  have h := buildAdd_getD coord ps (List.replicate 8 0) (by simp) hv
    (fun k hk => by
      have hcbk := List.countP_le_length (l := ps) (p := fun p => (coord p).toNat == k)
      rw [getD_replicate_zero k]
      omega) j hj
  rw [h, getD_replicate_zero j]
  omega

/-- `setMat` at a valid position keeps the 8x8 dimensions. -/
theorem setMat_dims {m : List (List GridCell)} (h1 : m.length = 8)
    (h2 : ∀ row ∈ m, row.length = 8) {x y : Int}
    (hv : isValidPosition x y = true) (v : GridCell) :
    (setMat m x y v).length = 8 ∧ ∀ row ∈ setMat m x y v, row.length = 8 := by
  obtain ⟨hx0, hx8, hy0, hy8⟩ := isValidPosition_iff.mp hv
  refine ⟨by simp [setMat, h1], ?_⟩
  intro row hmem
  rcases List.mem_or_eq_of_mem_set hmem with h | h
  · exact h2 _ h
  · subst h
    rw [List.length_set]
    exact h2 _ (mem_getD_of_lt (by omega))

/-- Occupancy of the clone produced by the naive mark loop: a cell is
occupied there exactly when it was occupied before or is a placement cell. -/
theorem foldSet_occ : ∀ (ps : List Point) (m : List (List GridCell)),
    m.length = 8 → (∀ row ∈ m, row.length = 8) →
    (∀ p ∈ ps, isValidPosition p.x p.y = true) →
    ∀ ix iy : Nat, ix < 8 → iy < 8 →
    (matGet (ps.foldl (fun m2 p => setMat m2 p.x p.y ⟨true, none⟩) m) ix iy).occupied
      = ((matGet m ix iy).occupied
          || decide ((Point.mk (Int.ofNat ix) (Int.ofNat iy)) ∈ ps))
  | [], m, _, _, _, ix, iy, _, _ => by simp
  | p :: rest, m, h1, h2, hval, ix, iy, hix, hiy => by
      simp only [List.foldl_cons]
      have hpv := hval p (List.mem_cons_self _ _)
      obtain ⟨hd1, hd2⟩ := setMat_dims h1 h2 hpv (⟨true, none⟩ : GridCell)
      rw [foldSet_occ rest _ hd1 hd2
        (fun q hq => hval q (List.mem_cons_of_mem _ hq)) ix iy hix hiy]
      obtain ⟨hx0, hx8, hy0, hy8⟩ := isValidPosition_iff.mp hpv
      by_cases hsame : ix = p.x.toNat ∧ iy = p.y.toNat
      · obtain ⟨hsx, hsy⟩ := hsame
        have e1 : Int.ofNat ix = p.x := by
          rw [Int.ofNat_eq_coe]
          omega
        have e2 : Int.ofNat iy = p.y := by
          rw [Int.ofNat_eq_coe]
          omega
        have hpe : (Point.mk (Int.ofNat ix) (Int.ofNat iy)) = p := by
          rw [e1, e2]
        have hmg : matGet (setMat m p.x p.y ⟨true, none⟩) ix iy = ⟨true, none⟩ := by
          rw [hsx, hsy]
          have hylen2 : p.y.toNat < m.length := by omega
          have hxlen2 : p.x.toNat < (m.getD p.y.toNat []).length := by
            rw [h2 _ (mem_getD_of_lt hylen2)]
            omega
          exact matGet_setMat_self hylen2 hxlen2 _
        have hmem : decide ((Point.mk (Int.ofNat ix) (Int.ofNat iy)) ∈ p :: rest) = true := by
          rw [decide_eq_true_eq, hpe]
          exact List.mem_cons_self _ _
        rw [hmg, hmem]
        simp
      · have hne : ix ≠ p.x.toNat ∨ iy ≠ p.y.toNat := by
          rcases Decidable.em (ix = p.x.toNat) with h | h
          · exact Or.inr (fun hh => hsame ⟨h, hh⟩)
          · exact Or.inl h
        rw [matGet_setMat_ne hne]
        have hnp : ¬((Point.mk (Int.ofNat ix) (Int.ofNat iy)) = p) := by
          intro he
          apply hsame
          have e1 := congrArg Point.x he
          have e2 := congrArg Point.y he
          rw [show (Point.mk (Int.ofNat ix) (Int.ofNat iy)).x = Int.ofNat ix from rfl,
            Int.ofNat_eq_coe] at e1
          rw [show (Point.mk (Int.ofNat ix) (Int.ofNat iy)).y = Int.ofNat iy from rfl,
            Int.ofNat_eq_coe] at e2
          exact ⟨by omega, by omega⟩
        have hmm : decide ((Point.mk (Int.ofNat ix) (Int.ofNat iy)) ∈ p :: rest)
            = decide ((Point.mk (Int.ofNat ix) (Int.ofNat iy)) ∈ rest) := by
          rw [decide_eq_decide, List.mem_cons]
          constructor
          · rintro (he | hh)
            · exact absurd he hnp
            · exact hh
          · exact Or.inr
        rw [hmm]

set_option maxHeartbeats 1000000 in
/-- C10: on a grid whose row/column fill counters are consistent with its
cell occupancy and in which no row or column is already fully occupied, the
optimized counter-delta `getCompletableLines` returns exactly the same list
of line indices (rows 0..7 ascending, then columns 8..15 ascending) as the
naive implementation that clones the whole grid, marks the shape cells, and
scans every row and column — for every catalog shape and origin. -/
theorem getCompletableLines_refines_naive (g : Grid) (shape : BlockShape) (gridPos : Point)
    (hc : g.Consistent) (hshape : shape ∈ FIGURES)
    (hrowlt : ∀ y < 8, rowOccCount g.cells y < 8)
    (hcollt : ∀ x < 8, colOccCount g.cells x < 8) :
    g.getCompletableLines shape gridPos = g.naiveGetCompletableLines shape gridPos := by
  unfold Grid.getCompletableLines Grid.naiveGetCompletableLines
  by_cases hcp : g.canPlace shape gridPos = true
  · rw [if_pos hcp, if_pos hcp]
    obtain ⟨⟨h1, h2, h3, h4⟩, hrcAll, hccAll⟩ := hc
    have hval := canPlace_forall hcp
    have hvalid : ∀ p ∈ placementCells shape gridPos, isValidPosition p.x p.y = true :=
      fun p hp => (hval p hp).1
    have hunocc : ∀ p ∈ placementCells shape gridPos, g.occAt p.x p.y = false :=
      fun p hp => (hval p hp).2
    have hnd : (placementCells shape gridPos).Nodup :=
      placementCells_nodup (figures_cells_nodup _ hshape)
    have hlen : (placementCells shape gridPos).length < 256 := by
      unfold placementCells
      rw [List.length_map]
      exact figures_cells_short _ hshape
    simp only []
    congr 1
    · apply List.filterMap_congr
      intro y hyr
      have hy : y < 8 := List.mem_range.mp hyr
      have hra : (buildAdditions (fun p => p.y) (placementCells shape gridPos)).getD y 0
          = List.countP (fun p => p.y.toNat == y) (placementCells shape gridPos) :=
        buildAdditions_getD _ _ (fun p hp => by
          obtain ⟨a1, a2, a3, a4⟩ := isValidPosition_iff.mp (hvalid p hp)
          exact ⟨a3, a4⟩) hlen hy
      have hrc : g.rowCounts.getD y 0 = rowOccCount g.cells y := hrcAll y hy
      have hgrow : (g.cells.getD y []).length = 8 := h2 _ (mem_getD_of_lt (by omega))
      have hoccr : rowOccCount g.cells y
          = (List.range 8).countP (fun x => (matGet g.cells x y).occupied) := by
        unfold rowOccCount
        rw [countP_eq_range_countP emptyCell (fun c => c.occupied) (g.cells.getD y []),
          hgrow]
        rfl
      have hall : ((List.range 8).all (fun x =>
            (matGet ((placementCells shape gridPos).foldl
              (fun m p => setMat m p.x p.y ⟨true, none⟩) g.cells) x y).occupied) = true)
          ↔ ((List.range 8).countP (fun x =>
            (matGet ((placementCells shape gridPos).foldl
              (fun m p => setMat m p.x p.y ⟨true, none⟩) g.cells) x y).occupied) = 8) := by
        rw [List.all_eq_true]
        constructor
        · intro hA
          have hh := List.countP_eq_length.mpr (fun a ha => hA a ha)
          rw [List.length_range] at hh
          exact hh
        · intro hC
          apply List.countP_eq_length.mp
          rw [List.length_range]
          exact hC
      have hdisjy : ∀ x ∈ List.range 8,
          ¬((matGet g.cells x y).occupied = true
            ∧ decide ((Point.mk (Int.ofNat x) (Int.ofNat y))
                ∈ placementCells shape gridPos) = true) := by
        intro x hxr hcon
        obtain ⟨ho, hm⟩ := hcon
        rw [decide_eq_true_eq] at hm
        have hu := hunocc _ hm
        have hu2 : (matGet g.cells x y).occupied = false := hu
        rw [ho] at hu2
        cases hu2
      have hsplit : (List.range 8).countP (fun x =>
            (matGet ((placementCells shape gridPos).foldl
              (fun m p => setMat m p.x p.y ⟨true, none⟩) g.cells) x y).occupied)
          = (List.range 8).countP (fun x => (matGet g.cells x y).occupied)
            + (List.range 8).countP (fun x =>
                decide ((Point.mk (Int.ofNat x) (Int.ofNat y))
                  ∈ placementCells shape gridPos)) := by
        rw [List.countP_congr (fun x hx => by
          rw [foldSet_occ _ g.cells h1 h2 hvalid x y (List.mem_range.mp hx) hy])]
        exact countP_or_disjoint _ _ _ hdisjy
      have hmemc : (List.range 8).countP (fun x =>
            decide ((Point.mk (Int.ofNat x) (Int.ofNat y))
              ∈ placementCells shape gridPos))
          = List.countP (fun p => p.y.toNat == y) (placementCells shape gridPos) := by
        rw [row_mem_count (Int.ofNat y) _ hnd (fun p hp => by
          obtain ⟨a1, a2, a3, a4⟩ := isValidPosition_iff.mp (hvalid p hp)
          exact ⟨a1, a2⟩)]
        refine List.countP_congr ?_
        intro p hp
        obtain ⟨a1, a2, a3, a4⟩ := isValidPosition_iff.mp (hvalid p hp)
        rw [beq_iff_eq, beq_iff_eq, Int.ofNat_eq_coe]
        omega
      have holt : rowOccCount g.cells y < 8 := hrowlt y hy
      refine if_congr ?_ rfl rfl
      rw [hra, hrc, hall, hsplit, hmemc, hoccr]
      omega
    · apply List.filterMap_congr
      intro x hxr
      have hx : x < 8 := List.mem_range.mp hxr
      have hca : (buildAdditions (fun p => p.x) (placementCells shape gridPos)).getD x 0
          = List.countP (fun p => p.x.toNat == x) (placementCells shape gridPos) :=
        buildAdditions_getD _ _ (fun p hp => by
          obtain ⟨a1, a2, a3, a4⟩ := isValidPosition_iff.mp (hvalid p hp)
          exact ⟨a1, a2⟩) hlen hx
      have hcc : g.colCounts.getD x 0 = colOccCount g.cells x := hccAll x hx
      have hoccc : colOccCount g.cells x
          = (List.range 8).countP (fun iy => (matGet g.cells x iy).occupied) := by
        unfold colOccCount
        rw [countP_eq_range_countP [] (fun row => (row.getD x emptyCell).occupied) g.cells,
          h1]
        rfl
      have hall : ((List.range 8).all (fun iy =>
            (matGet ((placementCells shape gridPos).foldl
              (fun m p => setMat m p.x p.y ⟨true, none⟩) g.cells) x iy).occupied) = true)
          ↔ ((List.range 8).countP (fun iy =>
            (matGet ((placementCells shape gridPos).foldl
              (fun m p => setMat m p.x p.y ⟨true, none⟩) g.cells) x iy).occupied) = 8) := by
        rw [List.all_eq_true]
        constructor
        · intro hA
          have hh := List.countP_eq_length.mpr (fun a ha => hA a ha)
          rw [List.length_range] at hh
          exact hh
        · intro hC
          apply List.countP_eq_length.mp
          rw [List.length_range]
          exact hC
      have hdisjx : ∀ iy ∈ List.range 8,
          ¬((matGet g.cells x iy).occupied = true
            ∧ decide ((Point.mk (Int.ofNat x) (Int.ofNat iy))
                ∈ placementCells shape gridPos) = true) := by
        intro iy hiyr hcon
        obtain ⟨ho, hm⟩ := hcon
        rw [decide_eq_true_eq] at hm
        have hu := hunocc _ hm
        have hu2 : (matGet g.cells x iy).occupied = false := hu
        rw [ho] at hu2
        cases hu2
      have hsplit : (List.range 8).countP (fun iy =>
            (matGet ((placementCells shape gridPos).foldl
              (fun m p => setMat m p.x p.y ⟨true, none⟩) g.cells) x iy).occupied)
          = (List.range 8).countP (fun iy => (matGet g.cells x iy).occupied)
            + (List.range 8).countP (fun iy =>
                decide ((Point.mk (Int.ofNat x) (Int.ofNat iy))
                  ∈ placementCells shape gridPos)) := by
        rw [List.countP_congr (fun iy hiy => by
          rw [foldSet_occ _ g.cells h1 h2 hvalid x iy hx (List.mem_range.mp hiy)])]
        exact countP_or_disjoint _ _ _ hdisjx
      have hmemc : (List.range 8).countP (fun iy =>
            decide ((Point.mk (Int.ofNat x) (Int.ofNat iy))
              ∈ placementCells shape gridPos))
          = List.countP (fun p => p.x.toNat == x) (placementCells shape gridPos) := by
        rw [col_mem_count (Int.ofNat x) _ hnd (fun p hp => by
          obtain ⟨a1, a2, a3, a4⟩ := isValidPosition_iff.mp (hvalid p hp)
          exact ⟨a3, a4⟩)]
        refine List.countP_congr ?_
        intro p hp
        obtain ⟨a1, a2, a3, a4⟩ := isValidPosition_iff.mp (hvalid p hp)
        rw [beq_iff_eq, beq_iff_eq, Int.ofNat_eq_coe]
        omega
      have holt : colOccCount g.cells x < 8 := hcollt x hx
      refine if_congr ?_ rfl rfl
      rw [hca, hcc, hall, hsplit, hmemc, hoccc]
      omega
  · rw [if_neg hcp, if_neg hcp]

theorem getCompletableLines_refines_naive_witness :
    Grid.empty.getCompletableLines figIg4 ⟨0, 0⟩
      = Grid.empty.naiveGetCompletableLines figIg4 ⟨0, 0⟩ :=
  getCompletableLines_refines_naive Grid.empty figIg4 ⟨0, 0⟩
    (by decide) (by decide) (by decide) (by decide)

/-! ## BlockGenerator (src/core/BlockGenerator.ts) -/

-- FIGURE_UNLOCK from src/data/constants.ts.
namespace FIGURE_UNLOCK

def initialCount : Nat := 42

def unlockThreshold : Nat := 40

def unlockRate : Nat := 5

def unlockInterval : Nat := 10

end FIGURE_UNLOCK

/-- The mutable fields of the `BlockGenerator` class. -/
structure BlockGenerator where
  dropCount : Nat
  lastThreeShapeIds : List String
deriving DecidableEq, Repr

/-- `getAvailableFigures`: a drop-count dependent prefix of the catalog. -/
def BlockGenerator.getAvailableFigures (gen : BlockGenerator) : List BlockShape :=
  let count :=
    if gen.dropCount > FIGURE_UNLOCK.unlockThreshold then
      min (FIGURE_UNLOCK.initialCount
          + ((gen.dropCount - FIGURE_UNLOCK.unlockThreshold) / FIGURE_UNLOCK.unlockInterval)
            * FIGURE_UNLOCK.unlockRate)
        FIGURES.length
    else FIGURE_UNLOCK.initialCount
  FIGURES.take count

/-- The cumulative-weight walk of `weightedRandom`: subtract weights until
the running random value drops to 0 or below and return that item; falling
off the loop returns the last item (`items[items.length - 1]`). -/
def wrWalk {α : Type _} : List (α × ℚ) → ℚ → Option α
  | [], _ => none
  | [(a, _)], _ => some a
  | (a, w) :: b :: rest, r =>
      if r - w ≤ 0 then some a else wrWalk (b :: rest) (r - w)

/-- `weightedRandom` from src/utils/math.ts, with its single `Math.random()`
draw passed in as `rand01` (the TypeScript `totalWeight` local is the foldl
sum appearing twice below): undefined (`none`) when the arrays mismatch or
are empty, or the total weight is not positive. -/
def weightedRandom {α : Type _} (items : List α) (weights : List ℚ) (rand01 : ℚ) :
    Option α :=
  if items.length = 0 ∨ items.length ≠ weights.length then none
  else if weights.foldl (· + ·) 0 ≤ 0 then none
  else wrWalk (items.zip weights) (rand01 * weights.foldl (· + ·) 0)

/-- An index-carrying filterMap mirroring the `for (let i = 0; ...)` loops
of the generator that collect values from the indexed weight table. -/
def indexedFilterMap {α β : Type _} (f : Nat → α → Option β) : Nat → List α → List β
  | _, [] => []
  | i, a :: rest =>
      match f i a with
      | some b => b :: indexedFilterMap f (i + 1) rest
      | none => indexedFilterMap f (i + 1) rest

/-- Modelled from the spec: the weight lookup `getWeight(i, dropIndex)` of
src/data/config.ts is not among the sources; per the spec it reads a
precomputed static table `weight[shapeIndex][dropBucket]`, so the table is
an arbitrary function parameter `w` of the generator operations below. -/
def BlockGenerator.validFigures (gen : BlockGenerator) (w : Nat → Nat → ℚ) :
    List (BlockShape × ℚ) :=
  let dropIndex := min (max gen.dropCount 1) 40
  indexedFilterMap (fun i fig =>
    if 0 < w i dropIndex ∧ ¬(gen.lastThreeShapeIds.contains fig.id)
    then some (fig, w i dropIndex) else none) 0 gen.getAvailableFigures

/-- `generateRandom`, modelled on shapes (`createBlock` only wraps the chosen
shape with a random color and a fresh id).  The single `Math.random()` draw
is `rand`; `none` models a JS `undefined` flowing into `createBlock`. -/
def BlockGenerator.generateRandomShape (gen : BlockGenerator) (w : Nat → Nat → ℚ)
    (rand : ℚ) : Option BlockShape :=
  let available := gen.getAvailableFigures
  let valid := gen.validFigures w
  if valid.length = 0 then
    let fallbackIndex := (⌊rand * (available.length : ℚ)⌋).toNat
    available.get? fallbackIndex
  else
    match weightedRandom (valid.map Prod.fst) (valid.map Prod.snd) rand with
    | some fig => some fig
    | none => (valid.map Prod.fst).get? 0

/-- `canPlaceAt` of BlockGenerator: checks the raw (unnormalized) cell
offsets against a cloned cell matrix; `gridSize` is `grid.getSize()` = 8. -/
def canPlaceAt (figure : BlockShape) (gridState : List (List GridCell)) (x y : Int) :
    Bool :=
  figure.cells.all fun c =>
    (0 ≤ x + c.1 && x + c.1 < 8 && 0 ≤ y + c.2 && y + c.2 < 8)
      && !(matGet gridState (x + c.1).toNat (y + c.2).toNat).occupied

/-- `calculatePlacementScore`: clone the state, mark the figure cells, count
completed rows and columns of the clone, then score (`lineScores[n] || 0`
table, a bonus of 2 per row below the placement, and the block count). -/
def calculatePlacementScore (figure : BlockShape) (gridState : List (List GridCell))
    (x y : Int) : Int :=
  let tempState := figure.cells.foldl
    (fun m c => setMat m (x + c.1) (y + c.2) ⟨true, none⟩) gridState
  let rowsCompleted := (List.range 8).countP fun row =>
    (List.range 8).all fun col => (matGet tempState col row).occupied
  let colsCompleted := (List.range 8).countP fun col =>
    (List.range 8).all fun row => (matGet tempState col row).occupied
  let linesCompleted : Int := rowsCompleted + colsCompleted
  let lineScore : Int :=
    if linesCompleted = 1 then 10 else if linesCompleted = 2 then 30
    else if linesCompleted = 3 then 60 else if linesCompleted = 4 then 100
    else if linesCompleted = 5 then 150
    else if linesCompleted > 5 then linesCompleted * 35 else 0
  lineScore + (8 - 1 - y) * 2 + (figure.blockCount : Int)

/-- `evaluateFigure`: best placement score over all 64 origins (0 when no
placement is legal). -/
def evaluateFigure (figure : BlockShape) (gridState : List (List GridCell)) : Int :=
  (List.range 8).foldl (fun best y =>
    (List.range 8).foldl (fun best2 x =>
      if canPlaceAt figure gridState (Int.ofNat x) (Int.ofNat y)
      then max best2 (calculatePlacementScore figure gridState (Int.ofNat x) (Int.ofNat y))
      else best2) best) 0

/-- The candidate record of `generateFavorable`. -/
structure Candidate where
  figure : BlockShape
  score : Int
  weight : ℚ
deriving DecidableEq, Repr

/-- The candidate-collection loop of `generateFavorable`: skip the trivial
single-cell shape Iv1, skip zero-weight or recently used shapes, keep the
rest when their best placement scores above zero. -/
def favorableCandidates (gen : BlockGenerator) (gridState : List (List GridCell))
    (w : Nat → Nat → ℚ) : List Candidate :=
  let dropIndex := min (max gen.dropCount 1) 40
  indexedFilterMap (fun i figure =>
    if figure.id = "Iv1" then none
    else if w i dropIndex ≤ 0 ∨ gen.lastThreeShapeIds.contains figure.id then none
    else
      if 0 < evaluateFigure figure gridState
      then some ⟨figure, evaluateFigure figure gridState, w i dropIndex⟩
      else none) 0 gen.getAvailableFigures

/-- The sort comparator of `generateFavorable`: score desc, then blockCount
desc, then weight desc. -/
def candCmp (a b : Candidate) : ℚ :=
  if b.score ≠ a.score then ((b.score - a.score : Int) : ℚ)
  else if b.figure.blockCount ≠ a.figure.blockCount
  then ((b.figure.blockCount : Int) - (a.figure.blockCount : Int) : ℚ)
  else b.weight - a.weight

/-- A stable insertion step driven by a JS comparator. -/
def jsSortInsert {α : Type _} (cmp : α → α → ℚ) (x : α) : List α → List α
  | [] => [x]
  | y :: ys => if cmp y x ≤ 0 then y :: jsSortInsert cmp x ys else x :: y :: ys

/-- A stable comparator sort (Array.prototype.sort is stable per ES2019;
only the permutation property of the sort is relied on below). -/
def jsSort {α : Type _} (cmp : α → α → ℚ) (l : List α) : List α :=
  l.foldl (fun acc x => jsSortInsert cmp x acc) []

/-- `generateFavorable`, modelled on shapes; `grid.getState()` is a clone of
the cell matrix, and the single `Math.random()` draw of the taken branch is
`rand`. -/
def BlockGenerator.generateFavorableShape (gen : BlockGenerator) (g : Grid)
    (w : Nat → Nat → ℚ) (rand : ℚ) : Option BlockShape :=
  let candidates := jsSort candCmp (favorableCandidates gen g.cells w)
  if 0 < candidates.length then
    let topCandidates := candidates.take (min 5 candidates.length)
    let topWeights := topCandidates.map fun c => ((c.score : ℚ))
    match weightedRandom topCandidates topWeights rand with
    | some c => some c.figure
    | none => (candidates.get? 0).map Candidate.figure
  else
    gen.generateRandomShape w rand

/-! ## C8: generateRandom always yields a shape from the pool -/

theorem wrWalk_mem {α : Type _} : ∀ (l : List (α × ℚ)) (r : ℚ) {a : α},
    wrWalk l r = some a → a ∈ l.map Prod.fst
  | [], _, _, h => by cases h
  | [(b, q)], r, a, h => by
      unfold wrWalk at h
      cases h
      simp
  | (b, q) :: c :: rest, r, a, h => by
      unfold wrWalk at h
      by_cases hc : r - q ≤ 0
      · rw [if_pos hc] at h
        cases h
        simp
      · rw [if_neg hc] at h
        have hm := wrWalk_mem (c :: rest) (r - q) h
        simp only [List.map_cons] at hm ⊢
        exact List.mem_cons_of_mem _ hm

theorem weightedRandom_mem {α : Type _} {items : List α} {weights : List ℚ} {rand : ℚ}
    {a : α} (h : weightedRandom items weights rand = some a) : a ∈ items := by
  unfold weightedRandom at h
  by_cases h1 : items.length = 0 ∨ items.length ≠ weights.length
  · rw [if_pos h1] at h
    cases h
  · rw [if_neg h1] at h
    push_neg at h1
    by_cases h2 : (weights.foldl (· + ·) 0) ≤ 0
    · rw [if_pos h2] at h
      cases h
    · rw [if_neg h2] at h
      have hm := wrWalk_mem _ _ h
      rw [List.map_fst_zip _ _ (le_of_eq h1.2)] at hm
      exact hm

theorem indexedFilterMap_mem {α β : Type _} (f : Nat → α → Option β) :
    ∀ (i : Nat) (l : List α) {b : β}, b ∈ indexedFilterMap f i l →
      ∃ j a, a ∈ l ∧ f j a = some b
  | i, [], b, h => by cases h
  | i, a :: rest, b, h => by
      unfold indexedFilterMap at h
      cases hf : f i a with
      | some c =>
          rw [hf] at h
          rcases List.mem_cons.mp h with he | hm
          · exact ⟨i, a, List.mem_cons_self _ _, by rw [hf, he]⟩
          · obtain ⟨j, a2, ha2, hfa⟩ := indexedFilterMap_mem f (i + 1) rest hm
            exact ⟨j, a2, List.mem_cons_of_mem _ ha2, hfa⟩
      | none =>
          rw [hf] at h
          obtain ⟨j, a2, ha2, hfa⟩ := indexedFilterMap_mem f (i + 1) rest h
          exact ⟨j, a2, List.mem_cons_of_mem _ ha2, hfa⟩

/-- Every pair collected by the weight-filter loop pairs a pool shape with
its weight. -/
theorem validFigures_fst_mem {gen : BlockGenerator} {w : Nat → Nat → ℚ}
    {b : BlockShape × ℚ} (h : b ∈ gen.validFigures w) :
    b.1 ∈ gen.getAvailableFigures := by
  unfold BlockGenerator.validFigures at h
  obtain ⟨j, a, ha, hfa⟩ := indexedFilterMap_mem _ _ _ h
  by_cases hcond : 0 < w j (min (max gen.dropCount 1) 40)
      ∧ ¬(gen.lastThreeShapeIds.contains a.id) = true
  · rw [if_pos hcond] at hfa
    cases hfa
    exact ha
  · rw [if_neg hcond] at hfa
    cases hfa

set_option maxRecDepth 4000 in
theorem FIGURES_length : FIGURES.length = 129 := by decide

/-- The available pool always holds at least the 42 initial figures. -/
theorem getAvailableFigures_pos (gen : BlockGenerator) :
    0 < gen.getAvailableFigures.length := by
  unfold BlockGenerator.getAvailableFigures
  simp only [List.length_take, FIGURES_length]
  split
  · unfold FIGURE_UNLOCK.initialCount FIGURE_UNLOCK.unlockRate
    omega
  · unfold FIGURE_UNLOCK.initialCount
    omega

/-- C8: `generateRandom` always terminates in a shape drawn from the
currently available pool and never returns undefined, for every generator
state, weight table, and random draw in [0,1); when weight and recent-use
filtering leaves zero candidates, the result is the uniform fallback pick
`available[floor(rand * available.length)]` over the entire pool. -/
theorem generateRandomShape_total (gen : BlockGenerator) (w : Nat → Nat → ℚ)
    (rand : ℚ) (h0 : 0 ≤ rand) (h1 : rand < 1) :
    (∃ shape, gen.generateRandomShape w rand = some shape
      ∧ shape ∈ gen.getAvailableFigures) ∧
    (gen.validFigures w = [] →
      gen.generateRandomShape w rand
        = gen.getAvailableFigures.get?
            (⌊rand * (gen.getAvailableFigures.length : ℚ)⌋).toNat) := by
  constructor
  · unfold BlockGenerator.generateRandomShape
    simp only []
    by_cases hv : (gen.validFigures w).length = 0
    · rw [if_pos hv]
      have hpos := getAvailableFigures_pos gen
      have hfl0 : 0 ≤ ⌊rand * (gen.getAvailableFigures.length : ℚ)⌋ :=
        Int.floor_nonneg.mpr (mul_nonneg h0 (by positivity))
      have hflN : ⌊rand * (gen.getAvailableFigures.length : ℚ)⌋
          < (gen.getAvailableFigures.length : Int) := by
        apply Int.floor_lt.mpr
        push_cast
        calc rand * (gen.getAvailableFigures.length : ℚ)
            < 1 * (gen.getAvailableFigures.length : ℚ) := by
              apply mul_lt_mul_of_pos_right h1
              exact_mod_cast hpos
          _ = (gen.getAvailableFigures.length : ℚ) := one_mul _
      have hidx : (⌊rand * (gen.getAvailableFigures.length : ℚ)⌋).toNat
          < gen.getAvailableFigures.length := by omega
      refine ⟨gen.getAvailableFigures.get ⟨_, hidx⟩, ?_, List.get_mem _ _ hidx⟩
      rw [List.get?_eq_get hidx]
    · rw [if_neg hv]
      have hvne : gen.validFigures w ≠ [] := by
        intro he
        rw [he] at hv
        exact hv rfl
      cases hwr : weightedRandom ((gen.validFigures w).map Prod.fst)
          ((gen.validFigures w).map Prod.snd) rand with
      | some fig =>
          refine ⟨fig, rfl, ?_⟩
          have hm := weightedRandom_mem hwr
          obtain ⟨b, hb, he⟩ := List.mem_map.mp hm
          exact he ▸ validFigures_fst_mem hb
      | none =>
          cases hval : gen.validFigures w with
          | nil => exact absurd hval hvne
          | cons b rest =>
              refine ⟨b.1, by rfl, ?_⟩
              refine validFigures_fst_mem (w := w) (b := b) ?_
              rw [hval]
              exact List.mem_cons_self b rest
  · intro hempty
    unfold BlockGenerator.generateRandomShape
    simp only []
    rw [if_pos (by rw [hempty]; rfl)]

theorem generateRandomShape_total_witness :
    ∃ shape, (BlockGenerator.mk 0 []).generateRandomShape (fun _ _ => 0) (1/2)
        = some shape
      ∧ shape ∈ (BlockGenerator.mk 0 []).getAvailableFigures :=
  (generateRandomShape_total ⟨0, []⟩ (fun _ _ => 0) (1/2)
    (by norm_num) (by norm_num)).1

/-! ## C9: generateFavorable never returns Iv1 when candidates exist -/

theorem mem_jsSortInsert {α : Type _} (cmp : α → α → ℚ) (x : α) :
    ∀ (l : List α) {a : α}, a ∈ jsSortInsert cmp x l → a = x ∨ a ∈ l
  | [], a, h => by
      unfold jsSortInsert at h
      exact Or.inl (List.mem_singleton.mp h)
  | y :: ys, a, h => by
      unfold jsSortInsert at h
      by_cases hc : cmp y x ≤ 0
      · rw [if_pos hc] at h
        rcases List.mem_cons.mp h with he | hm
        · refine Or.inr ?_
          rw [he]
          exact List.mem_cons_self _ _
        · rcases mem_jsSortInsert cmp x ys hm with h2 | h2
          · exact Or.inl h2
          · exact Or.inr (List.mem_cons_of_mem _ h2)
      · rw [if_neg hc] at h
        rcases List.mem_cons.mp h with he | hm
        · exact Or.inl he
        · exact Or.inr hm

theorem mem_jsSortFold {α : Type _} (cmp : α → α → ℚ) :
    ∀ (l acc : List α) {a : α},
      a ∈ l.foldl (fun acc2 x => jsSortInsert cmp x acc2) acc → a ∈ acc ∨ a ∈ l
  | [], _, _, h => Or.inl h
  | x :: rest, acc, a, h => by
      rcases mem_jsSortFold cmp rest (jsSortInsert cmp x acc) h with h1 | h1
      · rcases mem_jsSortInsert cmp x acc h1 with h2 | h2
        · refine Or.inr ?_
          rw [h2]
          exact List.mem_cons_self _ _
        · exact Or.inl h2
      · exact Or.inr (List.mem_cons_of_mem _ h1)

theorem mem_jsSort {α : Type _} {cmp : α → α → ℚ} {l : List α} {a : α}
    (h : a ∈ jsSort cmp l) : a ∈ l := by
  rcases mem_jsSortFold cmp l [] h with h1 | h1
  · cases h1
  · exact h1

theorem jsSortInsert_length {α : Type _} (cmp : α → α → ℚ) (x : α) :
    ∀ l : List α, (jsSortInsert cmp x l).length = l.length + 1
  | [] => rfl
  | y :: ys => by
      unfold jsSortInsert
      by_cases hc : cmp y x ≤ 0
      · rw [if_pos hc]
        simp [jsSortInsert_length cmp x ys]
      · rw [if_neg hc]
        rfl

theorem jsSortFold_length {α : Type _} (cmp : α → α → ℚ) :
    ∀ (l acc : List α),
      (l.foldl (fun acc2 x => jsSortInsert cmp x acc2) acc).length
        = acc.length + l.length
  | [], acc => by simp
  | x :: rest, acc => by
      simp only [List.foldl_cons]
      rw [jsSortFold_length cmp rest (jsSortInsert cmp x acc),
        jsSortInsert_length cmp x acc]
      simp only [List.length_cons]
      omega

theorem jsSort_length {α : Type _} (cmp : α → α → ℚ) (l : List α) :
    (jsSort cmp l).length = l.length := by
  unfold jsSort
  rw [jsSortFold_length cmp l []]
  simp

/-- Every candidate figure collected by generateFavorable is a non-trivial
shape: the single-cell Iv1 is skipped by the loop. -/
theorem favorableCandidates_not_Iv1 {gen : BlockGenerator}
    {m : List (List GridCell)} {w : Nat → Nat → ℚ} :
    ∀ c ∈ favorableCandidates gen m w, c.figure.id ≠ "Iv1" := by
  intro c hc
  unfold favorableCandidates at hc
  simp only [] at hc
  obtain ⟨j, a, _, hfa⟩ := indexedFilterMap_mem _ _ _ hc
  by_cases h1 : a.id = "Iv1"
  · rw [if_pos h1] at hfa
    cases hfa
  · rw [if_neg h1] at hfa
    by_cases h2 : w j (min (max gen.dropCount 1) 40) ≤ 0
        ∨ gen.lastThreeShapeIds.contains a.id = true
    · rw [if_pos h2] at hfa
      cases hfa
    · rw [if_neg h2] at hfa
      by_cases h3 : 0 < evaluateFigure a m
      · rw [if_pos h3] at hfa
        cases hfa
        exact h1
      · rw [if_neg h3] at hfa
        cases hfa

/-- C9: whenever generateFavorable finds at least one non-trivial favorable
candidate (unlocked, positive weight, not recently used, not Iv1, best legal
placement scoring above zero), the shape it returns is never the single-cell
Iv1, for every possible outcome of the random top-5 weighted sample. -/
theorem generateFavorableShape_not_Iv1 (gen : BlockGenerator) (g : Grid)
    (w : Nat → Nat → ℚ) (rand : ℚ)
    (h : favorableCandidates gen g.cells w ≠ []) :
    ∃ shape, gen.generateFavorableShape g w rand = some shape ∧ shape.id ≠ "Iv1" := by
  unfold BlockGenerator.generateFavorableShape
  simp only []
  have hlen : 0 < (jsSort candCmp (favorableCandidates gen g.cells w)).length := by
    rw [jsSort_length]
    exact List.length_pos.mpr h
  rw [if_pos hlen]
  cases hwr : weightedRandom
      ((jsSort candCmp (favorableCandidates gen g.cells w)).take
        (min 5 (jsSort candCmp (favorableCandidates gen g.cells w)).length))
      (((jsSort candCmp (favorableCandidates gen g.cells w)).take
        (min 5 (jsSort candCmp (favorableCandidates gen g.cells w)).length)).map
          fun c => ((c.score : ℚ))) rand with
  | some c =>
      refine ⟨c.figure, rfl, ?_⟩
      have hmem := weightedRandom_mem hwr
      have hms : c ∈ jsSort candCmp (favorableCandidates gen g.cells w) :=
        (List.take_sublist _ _).mem hmem
      exact favorableCandidates_not_Iv1 c (mem_jsSort hms)
  | none =>
      cases hs : jsSort candCmp (favorableCandidates gen g.cells w) with
      | nil =>
          rw [hs] at hlen
          cases hlen
      | cons c rest =>
          refine ⟨c.figure, by rfl, ?_⟩
          have hcmem : c ∈ favorableCandidates gen g.cells w :=
            @mem_jsSort Candidate candCmp (favorableCandidates gen g.cells w) c
              (by rw [hs]; exact List.mem_cons_self c rest)
          exact favorableCandidates_not_Iv1 c hcmem

set_option maxRecDepth 16000 in
theorem generateFavorableShape_not_Iv1_witness :
    ∃ shape, (BlockGenerator.mk 0 []).generateFavorableShape Grid.empty
        (fun i _ => if i = 2 then 1 else 0) (1/2) = some shape ∧ shape.id ≠ "Iv1" :=
  generateFavorableShape_not_Iv1 ⟨0, []⟩ Grid.empty
    (fun i _ => if i = 2 then 1 else 0) (1/2) (by decide)
